import Mathlib

/-!
# Verification of the lift-log workout tracker

A shallow embedding, in Lean 4, of the logic of the lift-log repository:
the next-set-number computation (`src/lib/sets.ts`), the personal-record
aggregation (`src/lib/workout.ts`), the sheet-row codec shared by the API
routes (`src/lib/google-sheets.ts` and the route handlers), the HTTP route
handlers for plan / sets / history / progress / setup / catalog / commit,
and the client-side workout-progression state machine
(`src/app/workout/exercise/page.tsx`).

Modelling conventions:
* A JavaScript `number` is modelled as `ℚ`; a value that may be `NaN`
  (e.g. the result of `Number(...)` on a non-numeric string) is modelled
  as `Option ℚ` with `none` standing for `NaN`.  Spreadsheet cells that
  the code always feeds through `Number(...)` are stored in their parsed
  form.  JavaScript infinities are outside the model.
* `undefined` / `null` string fields are `Option String`.
* String primitives (`trim`, `toLowerCase`, lexicographic comparison) are
  defined over character lists so that every definition evaluates inside
  the kernel.
* Asynchronous fetches are modelled by passing the fetched value to the
  handler as an explicit argument; each handler is a pure function from
  its request data and fetched data to its JSON response.
-/

namespace LiftLog

/-! ## JavaScript primitives -/

/-- JS `String.prototype.trim`. -/
def jsTrim (s : String) : String :=
  String.mk (((s.data.dropWhile Char.isWhitespace).reverse.dropWhile
    Char.isWhitespace).reverse)

/-- JS `String.prototype.toLowerCase` (ASCII subset). -/
def jsLower (s : String) : String :=
  String.mk (s.data.map Char.toLower)

/-- JS `String.prototype.toUpperCase` (ASCII subset). -/
def jsUpper (s : String) : String :=
  String.mk (s.data.map Char.toUpper)

/-- Lexicographic `≤` on strings: the ordering behind
`a.localeCompare(b)` on ASCII timestamp strings. -/
def strLeChars : List Char → List Char → Bool
  | [], _ => true
  | _ :: _, [] => false
  | a :: as, b :: bs =>
      if a = b then strLeChars as bs else decide (a < b)

/-- String comparison used by the `.sort` comparators. -/
def strLe (a b : String) : Bool :=
  strLeChars a.data b.data

/-- JS `Math.max` on two finite numbers. -/
def mathMax (a b : ℚ) : ℚ := if a < b then b else a

/-- JS `Math.min` on two finite numbers. -/
def mathMin (a b : ℚ) : ℚ := if b < a then b else a

/-- JS `Math.max(...nums)` over a non-empty spread (callers guard
emptiness themselves). -/
def mathMaxList (nums : List ℚ) : ℚ :=
  match nums with
  | [] => 0
  | h :: t => t.foldl mathMax h

/-- JS `v || d` on a possibly-`NaN` number: `0` and `NaN` are falsy. -/
def jsNumOr (v : Option ℚ) (d : ℚ) : ℚ :=
  match v with
  | some q => if q = 0 then d else q
  | none => d

/-- JS `Number(s)` on a cell string (common decimal subset: optional
sign, digits, optional fractional part; the empty or blank string coerces
to `0`).  `none` models `NaN`. -/
def jsNumber (s : String) : Option ℚ :=
  let t := (jsTrim s).data
  if t = [] then some 0
  else
    let (sign, digits) :=
      match t with
      | '-' :: rest => ((-1 : ℚ), rest)
      | '+' :: rest => ((1 : ℚ), rest)
      | _ => ((1 : ℚ), t)
    let digitsVal (cs : List Char) : ℚ :=
      cs.foldl (fun acc c => acc * 10 + (c.toNat - '0'.toNat : ℕ)) 0
    match digits.splitOn '.' with
    | [intPart] =>
        if intPart ≠ [] ∧ intPart.all Char.isDigit then
          some (sign * digitsVal intPart)
        else none
    | [intPart, fracPart] =>
        if (intPart ≠ [] ∨ fracPart ≠ []) ∧ intPart.all Char.isDigit ∧
            fracPart.all Char.isDigit then
          some (sign * (digitsVal intPart +
            digitsVal fracPart / ((10 : ℚ) ^ fracPart.length)))
        else none
    | _ => none

/-! ## `computeNextSetNumber` (src/lib/sets.ts) -/

/-- Embeds `computeNextSetNumber` from `src/lib/sets.ts`.
`plannedSetCount` is the (possibly `NaN`) planned set count; each entry of
`loggedSetsForExercise` is the `setNumber` field of a logged set, with
`none` for `undefined` / `null` / `NaN`. -/
def computeNextSetNumber (plannedSetCount : Option ℚ)
    (loggedSetsForExercise : List (Option ℚ)) : ℚ :=
  -- const planned = Math.max(1, args.plannedSetCount || 1);
  let planned : ℚ := mathMax 1 (jsNumOr plannedSetCount 1)
  -- .map((s) => Number(s.setNumber || 0)).filter((n) => isFinite && n > 0)
  let nums := (loggedSetsForExercise.map (fun s => jsNumOr s 0)).filter
    (fun n => 0 < n)
  -- const maxLogged = nums.length ? Math.max(...nums) : 0;
  let maxLogged : ℚ := if nums.isEmpty then 0 else mathMaxList nums
  let next := mathMin planned (maxLogged + 1)
  if next < 1 then 1 else next

/-! ## Data rows and personal records (src/lib/workout.ts) -/

/-- Embeds the `LoggedSet` type of `src/lib/workout.ts`.  The numeric-cell
fields (`set_number`, `weight`, `reps`) hold the value of `Number(...)` on
the stored string, `none` for a non-numeric cell. -/
structure LoggedSet where
  session_id : String
  set_id : Option String := none
  user_email : Option String := none
  set_timestamp : String := ""
  exercise_id : String := ""
  exercise_name : String := ""
  exercise_order : Option ℚ := some 0
  set_number : Option ℚ := some 0
  weight : Option ℚ := some 0
  reps : Option ℚ := some 0
  is_skipped : String := "FALSE"
  skip_reason : String := ""
  rpe : String := ""
  rest_seconds : String := ""
  rest_target_seconds : String := ""
  notes : String := ""
  is_deleted : Option String := none
  deriving Repr, DecidableEq

/-- Embeds the `PrValues` type of `src/lib/workout.ts`; `none` stands for
the `null` produced from the `-Infinity` sentinel. -/
structure PrValues where
  prMaxWeight : Option ℚ
  prMaxWeightTimesReps : Option ℚ
  deriving Repr, DecidableEq

/-- One iteration of the `for (const s of all)` loop of `computePrValues`.
The accumulator components model the `maxWeight` / `maxWtXReps` mutables,
with `none` for the `-Infinity` sentinel (any finite value beats it). -/
def prStep (acc : Option ℚ × Option ℚ) (s : LoggedSet) : Option ℚ × Option ℚ :=
  -- const w = Number(s.weight); const repsNum = Number(s.reps) || 0;
  let w := s.weight
  let repsNum : ℚ := jsNumOr s.reps 0
  -- if (Number.isFinite(w) && w > maxWeight) maxWeight = w;
  let maxWeight : Option ℚ :=
    match w, acc.1 with
    | some wv, none => some wv
    | some wv, some m => if m < wv then some wv else some m
    | none, m => m
  -- const usedW = Number.isFinite(w) && w > 0 ? w : 1;
  let usedW : ℚ := match w with
    | some wv => if 0 < wv then wv else 1
    | none => 1
  -- const product = usedW * repsNum;  (always finite in this model)
  let product := usedW * repsNum
  let maxWtXReps : Option ℚ :=
    match acc.2 with
    | none => some product
    | some m => if m < product then some product else some m
  (maxWeight, maxWtXReps)

/-- Embeds `computePrValues` from `src/lib/workout.ts`. -/
def computePrValues (sets : List LoggedSet) : PrValues :=
  if sets.isEmpty then ⟨none, none⟩
  else
    let r := sets.foldl prStep (none, none)
    ⟨r.1, r.2⟩

/-! ## The sheet-row codec

The header-resolution code below appears verbatim in
`src/lib/google-sheets.ts` (`readWorkoutPlan`, `readWorkoutSets`) and in
the `sets/create`, `sets/update`, `exercise-setup/get` and
`exercise-catalog/get` route handlers: normalize each header cell, build
a first-occurrence map from normalized names to column indices, and
resolve each semantic field through a prioritized candidate list with a
hardcoded positional fallback. -/

/-- `asString` from the route files: `(value ?? "").toString().trim()`. -/
def asString (value : Option String) : String :=
  jsTrim (value.getD "")

/-- `asNumber` from the route files: `Number(value ?? 0)`. -/
def asNumber (value : Option String) : Option ℚ :=
  match value with
  | none => some 0
  | some s => jsNumber s

/-- `normalizeHeader`:
`asString(value).toLowerCase().replace(/[^a-z0-9]/g, "")`. -/
def normalizeHeader (value : Option String) : String :=
  String.mk ((jsLower (asString value)).data.filter Char.isAlphanum)

/-- The `headerRow.forEach` loop that fills `headerMap`: the accumulator
is the map as an association list, `i` the current column index; an empty
normalized name is skipped and only the first occurrence of a name is
kept. -/
def buildHeaderMapAux (m : List (String × ℕ)) (i : ℕ) :
    List String → List (String × ℕ)
  | [] => m
  | h :: rest =>
      buildHeaderMapAux
        (let key := normalizeHeader (some h)
         if key = "" then m
         else if (m.lookup key).isSome then m
         else m ++ [(key, i)])
        (i + 1) rest

/-- The `headerMap` built from a header row. -/
def buildHeaderMap (headerRow : List String) : List (String × ℕ) :=
  buildHeaderMapAux [] 0 headerRow

/-- `getIndex(keys, fallback)`: the first candidate name found in the
header map wins; otherwise `fallback ?? -1`. -/
def getIndex (m : List (String × ℕ)) (keys : List String)
    (fallback : Option ℕ) : ℤ :=
  match keys with
  | [] =>
      match fallback with
      | some f => (f : ℤ)
      | none => -1
  | k :: rest =>
      match m.lookup k with
      | some idx => (idx : ℤ)
      | none => getIndex m rest fallback

/-- JS `row[idx]` for a codec-resolved index: `undefined` (here `none`)
for a negative or out-of-range index. -/
def cellAt (row : List String) (idx : ℤ) : Option String :=
  if 0 ≤ idx then row.get? idx.toNat else none

/-- `asString(row[idx])`. -/
def asStringCell (row : List String) (idx : ℤ) : String :=
  asString (cellAt row idx)

/-- JS `arr[i] = v` on a string array: an in-range write replaces the
cell, an out-of-range write extends the array, with the holes reading
back as empty cells. -/
def listWrite : List String → ℕ → String → List String
  | [], 0, v => [v]
  | [], n + 1, v => "" :: listWrite [] n v
  | _ :: t, 0, v => v :: t
  | h :: t, n + 1, v => h :: listWrite t n v

/-- JS `String(n)` on a finite number.  The claims never depend on the
decimal rendering, so the default rational rendering is used. -/
def jsNumToString (q : ℚ) : String := toString q

/-! ## Environment, auth session and fetch results -/

/-- `process.env`: environment variables by name. -/
def Env : Type := String → Option String

/-- `!process.env[key]`: a required env var is missing when unset or
empty (both are falsy). -/
def envMissing (env : Env) (key : String) : Bool :=
  match env key with
  | none => true
  | some s => s == ""

/-- `process.env[key] || default` (used for tab names such as
`process.env.SHEET_WORKOUT_SETS || "WorkoutSets"`). -/
def envOr (env : Env) (key : String) (d : String) : String :=
  match env key with
  | none => d
  | some s => if s = "" then d else s

/-- The NextAuth server session as the handlers see it: an access token
and the signed-in user's email, each possibly absent. -/
structure NextAuthSession where
  accessToken : Option String := none
  userEmail : Option String := none
  deriving Repr, DecidableEq

/-- `!session?.accessToken` (an empty token string is falsy too). -/
def tokenMissing : Option NextAuthSession → Bool
  | none => true
  | some a =>
      match a.accessToken with
      | none => true
      | some t => t == ""

/-- `!session?.user?.email`. -/
def emailMissing : Option NextAuthSession → Bool
  | none => true
  | some a =>
      match a.userEmail with
      | none => true
      | some e => e == ""

/-- `session?.user?.email ?? ""`. -/
def sessionEmail : Option NextAuthSession → String
  | none => ""
  | some a => a.userEmail.getD ""

/-- The result of a Sheets `values` fetch, as the handlers consume it:
HTTP success flag, status, and the `values` cell grid. -/
structure FetchValues where
  ok : Bool := true
  status : ℕ := 200
  values : List (List String) := []
  deriving Repr, DecidableEq

/-! ## The current-session set listing (`api/sheets/sets` GET) -/

/-- Response of the set-listing route. -/
structure SetsListResponse where
  status : ℕ
  error : Option String := none
  sets : List LoggedSet := []
  deriving Repr, DecidableEq

/-- Embeds the GET handler of the current-session set listing.  `sets` is
the `readWorkoutSets` result. -/
def setsListGET (session : Option NextAuthSession) (env : Env)
    (sessionIdParam : Option String) (sets : List LoggedSet) :
    SetsListResponse :=
  if tokenMissing session then ⟨401, some "Unauthorized", []⟩
  else
    let missing := ["SPREADSHEET_ID", "SHEET_WORKOUT_SETS"].filter
      (fun key => envMissing env key)
    if missing ≠ [] then
      ⟨500, some ("Missing required env vars: " ++
        String.intercalate ", " missing), []⟩
    else
      let sessionId := jsTrim (sessionIdParam.getD "")
      if sessionId = "" then ⟨400, some "Missing sessionId", []⟩
      else
        ⟨200, none, sets.filter (fun set =>
          set.session_id == sessionId && set.is_deleted != some "TRUE")⟩

/-! ## The exercise-history endpoint (`api/history` GET) -/

/-- Response of the history route. -/
structure HistoryResponse where
  status : ℕ
  error : Option String := none
  sets : List LoggedSet := []
  lastSessionDate : Option String := none
  deriving Repr, DecidableEq

/-- Embeds the GET handler of `src/app/api/history/route.ts`.  `sets` is
the `readWorkoutSets` result; the `.sort` comparator
`b.set_timestamp.localeCompare(a.set_timestamp)` is modelled by
lexicographic comparison of the ASCII timestamp strings. -/
def historyGET (session : Option NextAuthSession)
    (exerciseKeyParam excludeSessionIdParam : Option String)
    (sets : List LoggedSet) : HistoryResponse :=
  if tokenMissing session || emailMissing session then
    ⟨401, some "Unauthorized", [], none⟩
  else
    let exerciseKey := jsTrim (jsLower (exerciseKeyParam.getD ""))
    let excludeSessionId := jsTrim (excludeSessionIdParam.getD "")
    let userEmail := jsLower (sessionEmail session)
    if exerciseKey = "" then ⟨200, none, [], none⟩
    else
      let matching := sets.filter (fun set =>
        let setEmail := jsLower (set.user_email.getD "")
        if setEmail != "" && setEmail != userEmail then false
        else if jsLower set.exercise_id != exerciseKey then false
        else if excludeSessionId != "" && set.session_id == excludeSessionId
          then false
        else true)
      let sorted := matching.mergeSort
        (fun a b => strLe b.set_timestamp a.set_timestamp)
      ⟨200, none, sorted,
        match sorted.head? with
        | some s => some s.set_timestamp
        | none => none⟩

/-! ## The per-exercise progress endpoint (`api/sheets/progress` GET) -/

/-- A session row as read back by `readWorkoutSessions`
(`src/lib/google-sheets.ts`): all cells as trimmed strings. -/
structure WorkoutSessionRow where
  session_id : String := ""
  plan_day : String := ""
  start_timestamp : String := ""
  end_timestamp : String := ""
  timezone : String := ""
  exercises_planned : String := ""
  exercises_completed : String := ""
  total_sets_logged : String := ""
  default_rest_seconds : String := ""
  notes : String := ""
  created_at : String := ""
  deriving Repr, DecidableEq

/-- The `ProgressSet` view built by the progress route. -/
structure ProgressSet where
  setNumber : Option ℚ
  setTimestamp : String
  weight : Option ℚ
  reps : Option ℚ
  restSeconds : Option ℚ
  rpe : String
  deriving Repr, DecidableEq

/-- The `ProgressSession` aggregate built by the progress route. -/
structure ProgressSession where
  sessionId : String
  sessionDate : String
  sets : List ProgressSet
  topSetWeight : ℚ
  totalReps : ℚ
  totalVolume : ℚ
  deriving Repr, DecidableEq

/-- `pickSessionDate`:
`(session?.end_timestamp || session?.start_timestamp || fallback)`. -/
def pickSessionDate (session : Option WorkoutSessionRow)
    (fallback : String) : String :=
  match session with
  | some s =>
      if s.end_timestamp ≠ "" then s.end_timestamp
      else if s.start_timestamp ≠ "" then s.start_timestamp
      else fallback
  | none => fallback

/-- `new Map(sessions.map(row => [row.session_id, row])).get(id)`: last
pair wins for a duplicated key. -/
def sessionMapGet (sessions : List WorkoutSessionRow) (sessionId : String) :
    Option WorkoutSessionRow :=
  sessions.reverse.find? (fun row => row.session_id == sessionId)

/-- Response of the progress route. -/
structure ProgressResponse where
  status : ℕ
  error : Option String := none
  exerciseKey : String := ""
  exerciseName : String := ""
  sessions : List ProgressSession := []
  deriving Repr, DecidableEq

/-- Embeds the GET handler of the progress route.  `parseDate` models
`new Date(value).getTime()` (`none` for an unparsable date, which
`asSortTimestamp` maps to `0`); `sessions` and `sets` are the
`readWorkoutSessions` / `readWorkoutSets` results. -/
def progressGET (session : Option NextAuthSession) (env : Env)
    (exerciseKeyParam : Option String) (parseDate : String → Option ℚ)
    (sessions : List WorkoutSessionRow) (sets : List LoggedSet) :
    ProgressResponse :=
  if tokenMissing session then ⟨401, some "Unauthorized", "", "", []⟩
  else
    let missing := ["SPREADSHEET_ID", "SHEET_WORKOUT_SETS",
      "SHEET_WORKOUT_SESSIONS"].filter (fun key => envMissing env key)
    if missing ≠ [] then
      ⟨500, some ("Missing required env vars: " ++
        String.intercalate ", " missing), "", "", []⟩
    else
      let exerciseKey := jsTrim (exerciseKeyParam.getD "")
      if exerciseKey = "" then ⟨400, some "Missing exerciseKey", "", "", []⟩
      else
        let asSortTimestamp := fun (value : String) =>
          (parseDate value).getD 0
        let exerciseSets := sets.filter
          (fun set => set.exercise_id == exerciseKey)
        if exerciseSets.isEmpty then ⟨200, none, exerciseKey, "", []⟩
        else
          let exerciseName :=
            (exerciseSets.head?.map (fun s => s.exercise_name)).getD ""
          let sessionsById := exerciseSets.foldl
            (fun (m : List (String × ProgressSession)) set =>
              let sessionRow := sessionMapGet sessions set.session_id
              let sessionDate := pickSessionDate sessionRow set.set_timestamp
              let entry := match m.lookup set.session_id with
                | some e => e
                | none => ⟨set.session_id, sessionDate, [], 0, 0, 0⟩
              let entry := { entry with
                sets := entry.sets ++ [⟨set.set_number, set.set_timestamp,
                  set.weight, set.reps, jsNumber set.rest_seconds, set.rpe⟩] }
              if (m.lookup set.session_id).isSome then
                m.map (fun p =>
                  if p.1 = set.session_id then (p.1, entry) else p)
              else m ++ [(set.session_id, entry)]) []
          let withStats := (sessionsById.map
            (fun (p : String × ProgressSession) => p.2)).map
            (fun (entry : ProgressSession) =>
              let setRows := entry.sets.mergeSort (fun a b =>
                -- comparator: setNumber difference, then timestamp delta
                let an := a.setNumber.getD 0
                let bn := b.setNumber.getD 0
                if an = bn then
                  decide (asSortTimestamp a.setTimestamp ≤
                    asSortTimestamp b.setTimestamp)
                else decide (an ≤ bn))
              let stats := setRows.foldl
                (fun (acc : ℚ × ℚ × ℚ) (set : ProgressSet) =>
                  let topSetWeight := match set.weight with
                    | some w => mathMax acc.1 w
                    | none => acc.1
                  let totalReps := match set.reps with
                    | some r => acc.2.1 + r
                    | none => acc.2.1
                  let totalVolume := match set.weight, set.reps with
                    | some w, some r => acc.2.2 + w * r
                    | _, _ => acc.2.2
                  (topSetWeight, totalReps, totalVolume)) (0, 0, 0)
              { entry with
                sets := setRows,
                topSetWeight := stats.1,
                totalReps := stats.2.1,
                totalVolume := stats.2.2 })
          let sessionsSorted := (withStats.mergeSort
            (fun (a b : ProgressSession) =>
              let aTime := asSortTimestamp a.sessionDate
              let bTime := asSortTimestamp b.sessionDate
              if aTime = bTime then strLe b.sessionDate a.sessionDate
              else decide (bTime < aTime))).take 4
          ⟨200, none, exerciseKey, exerciseName, sessionsSorted⟩

/-! ## The exercise-catalog read (`api/sheets/exercise-catalog/get`) -/

/-- `asOptionalNumber` from the catalog route. -/
def asOptionalNumber (value : Option String) : Option ℚ :=
  let raw := asString value
  if raw = "" then none
  else
    match asNumber (some raw) with
    | some n => some n      -- Number.isFinite(num)
    | none => none

/-- `asOptionalBoolean` from the catalog and setup routes. -/
def asOptionalBoolean (value : Option String) : Option Bool :=
  let raw := jsLower (asString value)
  if raw = "" then none
  else if ["false", "no", "0"].contains raw then some false
  else if ["true", "yes", "1"].contains raw then some true
  else none

/-- The catalog row payload of the catalog route. -/
structure ExerciseCatalogRow where
  exerciseKey : String := ""
  exerciseName : String := ""
  videoUrl : String := ""
  defaultRequiresWeight : Option Bool := none
  defaultRestSeconds : Option ℚ := none
  isActive : Option Bool := none
  deriving Repr, DecidableEq

/-- Response of the catalog route. -/
structure CatalogResponse where
  status : ℕ
  error : Option String := none
  found : Bool := false
  row : Option ExerciseCatalogRow := none
  deriving Repr, DecidableEq

/-- Embeds the GET handler of
`src/app/api/sheets/exercise-catalog/get/route.ts`.  `fetch` is the
Sheets `values` response for the catalog tab. -/
def catalogGET (session : Option NextAuthSession)
    (exerciseKeyParam : Option String) (env : Env) (fetch : FetchValues) :
    CatalogResponse :=
  if tokenMissing session then ⟨401, some "Not signed in", false, none⟩
  else
    let exerciseKey := jsTrim (exerciseKeyParam.getD "")
    if exerciseKey = "" then ⟨200, none, false, none⟩
    else if envMissing env "SPREADSHEET_ID" then ⟨200, none, false, none⟩
    else if !fetch.ok then ⟨200, none, false, none⟩
    else
      let rows := fetch.values
      let headerRow := rows.head?.getD []
      let m := buildHeaderMap headerRow
      let idxExerciseKey := getIndex m
        ["exercisekey", "exerciseid", "exercise_id"] (some 0)
      let idxExerciseName := getIndex m
        ["exercisename", "exercise_name"] (some 1)
      let idxVideoUrl := getIndex m
        ["videourl", "video_url", "youtubeurl"] (some 2)
      let idxDefaultRequiresWeight := getIndex m
        ["defaultrequiresweight", "requiresweight"] none
      let idxDefaultRestSeconds := getIndex m
        ["defaultrestseconds", "defaultrest"] (some 4)
      let idxIsActive := getIndex m ["isactive"] (some 5)
      match (rows.drop 1).find?
        (fun row => asStringCell row idxExerciseKey == exerciseKey) with
      | none => ⟨200, none, false, none⟩
      | some row =>
          ⟨200, none, true, some
            { exerciseKey := asStringCell row idxExerciseKey,
              exerciseName := asStringCell row idxExerciseName,
              videoUrl := asStringCell row idxVideoUrl,
              defaultRequiresWeight :=
                asOptionalBoolean (cellAt row idxDefaultRequiresWeight),
              defaultRestSeconds :=
                asOptionalNumber (cellAt row idxDefaultRestSeconds),
              isActive := asOptionalBoolean (cellAt row idxIsActive) }⟩

/-! ## The exercise-setup read (`api/sheets/exercise-setup/get`) -/

/-- The setup row payload of the setup route. -/
structure ExerciseSetupRow where
  setupId : String := ""
  userEmail : String := ""
  exerciseKey : String := ""
  defaultRestSeconds : Option ℚ := some 0
  requiresWeight : Option Bool := none
  notes : String := ""
  setupJson : String := ""
  createdAt : String := ""
  updatedAt : String := ""
  deriving Repr, DecidableEq

/-- Response of the setup route. -/
structure SetupResponse where
  status : ℕ
  error : Option String := none
  found : Bool := false
  row : Option ExerciseSetupRow := none
  deriving Repr, DecidableEq

/-- Embeds the GET handler of
`src/app/api/sheets/exercise-setup/get/route.ts`. -/
def setupGET (session : Option NextAuthSession)
    (exerciseKeyParam : Option String) (env : Env) (fetch : FetchValues) :
    SetupResponse :=
  if tokenMissing session || emailMissing session then
    ⟨401, some "Not signed in", false, none⟩
  else
    let userEmail := sessionEmail session
    let exerciseKey := jsTrim (exerciseKeyParam.getD "")
    if exerciseKey = "" then ⟨400, some "Missing exerciseKey", false, none⟩
    else if envMissing env "SPREADSHEET_ID" then
      ⟨500, some "Missing SPREADSHEET_ID", false, none⟩
    else if !fetch.ok then
      ⟨fetch.status, some "Failed reading ExerciseSetup", false, none⟩
    else
      let rows := fetch.values
      let headerRow := rows.head?.getD []
      let m := buildHeaderMap headerRow
      let idxSetupId := getIndex m ["setupid"] (some 0)
      let idxUserEmail := getIndex m ["useremail"] (some 1)
      let idxExerciseKey := getIndex m
        ["exercisekey", "exerciseid", "exercise_id"] (some 2)
      let idxDefaultRestSeconds := getIndex m
        ["defaultrestseconds", "defaultrest"] (some 3)
      let idxNotes := getIndex m ["notes"] (some 4)
      let idxSetupJson := getIndex m ["setupjson"] (some 5)
      let idxRequiresWeight := getIndex m ["requiresweight"] none
      let idxCreatedAt := getIndex m ["createdat"] (some 6)
      let idxUpdatedAt := getIndex m ["updatedat"] (some 7)
      let idxIsDeleted := getIndex m ["isdeleted"] (some 8)
      match (rows.drop 1).find? (fun row =>
        let isDeleted := decide (0 ≤ idxIsDeleted) &&
          jsUpper (asStringCell row idxIsDeleted) == "TRUE"
        !isDeleted && asStringCell row idxUserEmail == userEmail &&
          asStringCell row idxExerciseKey == exerciseKey) with
      | none => ⟨200, none, false, none⟩
      | some row =>
          ⟨200, none, true, some
            { setupId := asStringCell row idxSetupId,
              userEmail := asStringCell row idxUserEmail,
              exerciseKey := asStringCell row idxExerciseKey,
              defaultRestSeconds :=
                asNumber (some (asStringCell row idxDefaultRestSeconds)),
              requiresWeight :=
                if 0 ≤ idxRequiresWeight then
                  asOptionalBoolean (cellAt row idxRequiresWeight)
                else none,
              notes := asStringCell row idxNotes,
              setupJson := asStringCell row idxSetupJson,
              createdAt := asStringCell row idxCreatedAt,
              updatedAt := asStringCell row idxUpdatedAt }⟩

/-! ## The day-plan read (`api/sheets/plan` GET) -/

/-- A plan row as read back by `readWorkoutPlan` in the library version
used by the plan route: numeric cells in their `Number(...)` form. -/
structure WorkoutPlanRow where
  plan_day : String := ""
  exercise_order : Option ℚ := some 0
  exercise_id : String := ""
  exercise_name : String := ""
  sets : Option ℚ := some 0
  target_rep_min : Option ℚ := some 0
  target_rep_max : Option ℚ := some 0
  youtube_url : String := ""
  deriving Repr, DecidableEq

/-- Response of the plan route. -/
structure PlanResponse where
  status : ℕ
  error : Option String := none
  planDay : String := ""
  availableDays : List String := []
  planRows : List WorkoutPlanRow := []
  deriving Repr, DecidableEq

/-- Embeds the GET handler of `src/app/api/sheets/plan/route.ts`.
`planRows` is the `readWorkoutPlan` result (so the modelled handler never
throws; the catch-all 500 branch of the source is unreachable here). -/
def planGET (session : Option NextAuthSession) (env : Env)
    (planDayParam : Option String) (planRows : List WorkoutPlanRow) :
    PlanResponse :=
  if tokenMissing session then ⟨401, some "Unauthorized", "", [], []⟩
  else if envMissing env "SPREADSHEET_ID" then
    ⟨400, some "SPREADSHEET_ID is not set.", "", [], []⟩
  else
    let planDay := planDayParam.getD ""
    let availableDays := (((planRows.map (fun row => row.plan_day)).filter
      (fun d => d != "")).eraseDups).mergeSort (fun a b => strLe a b)
    let filtered := if planDay ≠ "" then
        planRows.filter (fun row => row.plan_day == planDay)
      else planRows
    ⟨200, none, planDay, availableDays,
      filtered.mergeSort (fun a b =>
        (a.exercise_order.getD 0) ≤ (b.exercise_order.getD 0))⟩

/-! ## The session commit (`api/sheets/commit` POST) -/

/-- The day-plan entry type of `src/lib/workout.ts` (`ExercisePlan`). -/
structure ExercisePlan where
  userEmail : String := ""
  dayKey : String := ""
  sortOrder : Option ℚ := some 0
  exercise_id : String := ""
  exercise_name : String := ""
  plannedSets : Option ℚ := some 0
  defaultRestSeconds : Option ℚ := none
  target_rep_min : Option ℚ := some 0
  target_rep_max : Option ℚ := some 0
  youtube_url : String := ""
  deriving Repr, DecidableEq

/-- A per-exercise note row (`WorkoutExerciseNoteRow`). -/
structure WorkoutExerciseNoteRow where
  session_id : String := ""
  exercise_id : String := ""
  exercise_name : String := ""
  exercise_order : Option ℚ := some 0
  notes : String := ""
  updated_at : String := ""
  deriving Repr, DecidableEq

/-- The commit request body after `req.json()`: each field possibly
absent; a non-array `sets` / `plan` and a non-object `exerciseNotes` are
also modelled by `none`. -/
structure CommitBody where
  workoutSession : Option WorkoutSessionRow := none
  session : Option WorkoutSessionRow := none
  sets : Option (List LoggedSet) := none
  plan : Option (List ExercisePlan) := none
  exerciseNotes : Option (List (String × String)) := none
  deriving Repr, DecidableEq

/-- Response of the commit route, with the rows it appended to the sheet
recorded as its modelled side effect. -/
structure CommitResponse where
  status : ℕ
  error : Option String := none
  ok : Bool := false
  appendedSession : Option WorkoutSessionRow := none
  appendedSets : List LoggedSet := []
  appendedNotes : List WorkoutExerciseNoteRow := []
  deriving Repr, DecidableEq

/-- Embeds the POST handler of `src/app/api/sheets/commit/route.ts`.
In this typed model a present session row always passes the
string-field shape validation (`isWorkoutSessionRow`). -/
def commitPOST (session : Option NextAuthSession) (env : Env)
    (body : Option CommitBody) (now : String) : CommitResponse :=
  if tokenMissing session then ⟨401, some "Unauthorized", false, none, [], []⟩
  else
    let missing := ["SPREADSHEET_ID", "SHEET_WORKOUT_SESSIONS",
      "SHEET_WORKOUT_SETS", "SHEET_WORKOUT_EXERCISE_NOTES"].filter
      (fun key => envMissing env key)
    if missing ≠ [] then
      ⟨500, some ("Missing required env vars: " ++
        String.intercalate ", " missing), false, none, [], []⟩
    else
      let workoutSession := match body with
        | some b => b.workoutSession <|> b.session
        | none => none
      let sets := (body.bind (fun b => b.sets)).getD []
      let plan := (body.bind (fun b => b.plan)).getD []
      let exerciseNotes := (body.bind (fun b => b.exerciseNotes)).getD []
      match workoutSession with
      | none => ⟨400, some "Invalid session data", false, none, [], []⟩
      | some ws =>
          let noteRows := plan.filterMap (fun exercise =>
            let notes := jsTrim
              ((exerciseNotes.lookup exercise.exercise_id).getD "")
            if notes = "" then none
            else some (⟨ws.session_id, exercise.exercise_id,
              exercise.exercise_name, exercise.sortOrder, notes, now⟩ :
              WorkoutExerciseNoteRow))
          ⟨200, none, true, some ws, sets, noteRows⟩

/-! ## The set-create route (`api/sheets/sets/create` POST)

Scalar request fields arrive as JSON; string-valued ones are modelled as
`Option String` (with `none` for absent/null) and numeric ones as
`Option ℚ`. -/

/-- The create request body (`CreateSetRequest`).  `rpe` may be a string
or number in the source; it is modelled in its string form, with
`Number(...)` applied where the handler does. -/
structure CreateSetRequest where
  sessionId : Option String := none
  exerciseKey : Option String := none
  exerciseName : Option String := none
  exerciseOrder : Option ℚ := none
  setNumber : Option ℚ := none
  weight : Option String := none
  reps : Option String := none
  rpe : Option String := none
  notes : Option String := none
  RestSeconds : Option String := none
  restSeconds : Option String := none
  restSec : Option String := none
  restTargetSec : Option String := none
  deriving Repr, DecidableEq

/-- Response of the create route, with the appended sheet row recorded as
its modelled side effect. -/
structure CreateResponse where
  status : ℕ
  error : Option String := none
  ok : Bool := false
  setId : Option String := none
  appendedRow : Option (List String) := none
  deriving Repr, DecidableEq

/-- Embeds the POST handler of `src/app/api/sheets/sets/create/route.ts`.
`newSetId` models the generated `makeId("set")`; `createdAt` models
`isoNow()`; `headerFetch` is the header-row fetch; `appendOk` /
`appendStatus` the result of the append call. -/
def createSetPOST (session : Option NextAuthSession) (env : Env)
    (body : Option CreateSetRequest) (newSetId createdAt : String)
    (headerFetch : FetchValues) (appendOk : Bool) (appendStatus : ℕ) :
    CreateResponse :=
  if tokenMissing session || emailMissing session then
    ⟨401, some "Not signed in", false, none, none⟩
  else
    let userEmail := sessionEmail session
    if envMissing env "SPREADSHEET_ID" then
      ⟨500, some "Missing SPREADSHEET_ID", false, none, none⟩
    else
      let b := body.getD {}
      let sessionId := jsTrim (b.sessionId.getD "")
      let exerciseKey := jsTrim (b.exerciseKey.getD "")
      let exerciseName := jsTrim (b.exerciseName.getD "")
      if sessionId = "" ∨ exerciseKey = "" ∨ exerciseName = "" then
        ⟨400, some
          "Missing required fields: sessionId, exerciseKey, exerciseName",
          false, none, none⟩
      else
        -- const setNumber = Number(rawSetNumber ?? 1);
        let setNumber : ℚ := b.setNumber.getD 1
        let weightValue := b.weight.getD ""
        let repsValue := b.reps.getD ""
        -- rpe: "" / null / undefined → default 7; non-finite → 7
        let rpeCandidate := match b.rpe with
          | some r => if r = "" then none else some r
          | none => none
        let rpeValue : ℚ := match rpeCandidate with
          | some r => (jsNumber r).getD 7
          | none => 7
        let restSeconds :=
          (b.RestSeconds <|> b.restSeconds <|> b.restSec).getD ""
        let restSec := restSeconds
        let restTargetSec := b.restTargetSec.getD restSec
        let restSecValue := if restSec = "" then "" else "0"
        let notesValue := b.notes.getD ""
        let updatedAt := createdAt
        if !headerFetch.ok then
          ⟨headerFetch.status, some "Failed reading WorkoutSets headers",
            false, none, none⟩
        else
          let headerRow := headerFetch.values.head?.getD []
          let m := buildHeaderMap headerRow
          let idxSetId := getIndex m ["setid"] (some 0)
          let idxSessionId := getIndex m ["sessionid"] (some 1)
          let idxUserEmail := getIndex m ["useremail"] (some 2)
          let idxExerciseKey := getIndex m
            ["exercisekey", "exerciseid", "exercise_key"] (some 3)
          let idxExerciseName := getIndex m
            ["exercisename", "exercise_name"] none
          let idxExerciseOrder := getIndex m
            ["exerciseorder", "exercise_order"] none
          let idxSetNumber := getIndex m ["setnumber", "set_number"] (some 4)
          let idxReps := getIndex m ["reps"] (some 5)
          let idxWeight := getIndex m ["weight"] (some 6)
          let idxRpe := getIndex m ["rpe"] (some 7)
          let idxRestSec := getIndex m
            ["restsec", "restseconds", "rest_seconds"] none
          let idxRestTargetSec := getIndex m
            ["resttargetsec", "resttargetseconds", "rest_target_seconds"] none
          let idxNotes := getIndex m ["notes"] none
          let idxCreatedAt := getIndex m ["createdat"] (some 8)
          let idxUpdatedAt := getIndex m ["updatedat"] (some 9)
          let idxIsDeleted := getIndex m ["isdeleted"] (some 10)
          let totalColumns := Nat.max headerRow.length
            (Nat.max (idxIsDeleted + 1).toNat
              (Nat.max (idxUpdatedAt + 1).toNat (idxCreatedAt + 1).toNat))
          let writeIf := fun (r : List String) (idx : ℤ) (v : String) =>
            if 0 ≤ idx then listWrite r idx.toNat v else r
          let row := List.replicate totalColumns ""
          let row := writeIf row idxSetId newSetId
          let row := writeIf row idxSessionId sessionId
          let row := writeIf row idxUserEmail userEmail
          let row := writeIf row idxExerciseKey exerciseKey
          let row := writeIf row idxExerciseName exerciseName
          let row := writeIf row idxExerciseOrder
            (match b.exerciseOrder with
             | some q => jsNumToString q
             | none => "")
          let row := writeIf row idxSetNumber (jsNumToString setNumber)
          let row := writeIf row idxReps repsValue
          let row := writeIf row idxWeight weightValue
          let row := writeIf row idxRpe (jsNumToString rpeValue)
          let row := writeIf row idxRestSec restSecValue
          let row := writeIf row idxRestTargetSec restTargetSec
          let row := writeIf row idxNotes notesValue
          let row := writeIf row idxCreatedAt createdAt
          let row := writeIf row idxUpdatedAt updatedAt
          let row := writeIf row idxIsDeleted "FALSE"
          if !appendOk then
            ⟨appendStatus, some "Sheets append failed", false, none, none⟩
          else ⟨200, none, true, some newSetId, some row⟩

/-! ## The set-update route (`api/sheets/sets/update` POST) -/

/-- The update request body (`UpdateSetRequest`).  Scalar fields are
modelled in the stringified form in which they are written to the sheet
(`String(val)`); `none` models absent or `null`, which `setIfProvided`
skips. -/
structure UpdateSetRequest where
  setId : Option String := none
  setNumber : Option String := none
  weight : Option String := none
  reps : Option String := none
  rpe : Option String := none
  notes : Option String := none
  RestSeconds : Option String := none
  restSeconds : Option String := none
  restSec : Option String := none
  restTargetSec : Option String := none
  deriving Repr, DecidableEq

/-- The column indices the update route resolves from the header row
(steps 2 of the handler); all carry positional fallbacks. -/
structure UpdateSetIndices where
  idxSetNumber : ℤ
  idxWeight : ℤ
  idxReps : ℤ
  idxRpe : ℤ
  idxRestSec : ℤ
  idxRestTargetSec : ℤ
  idxNotes : ℤ
  idxUpdatedAt : ℤ
  deriving Repr, DecidableEq

/-- The `getIndex` block of the update route. -/
def updateSetIndices (headerRow : List String) : UpdateSetIndices :=
  let m := buildHeaderMap headerRow
  { idxSetNumber := getIndex m ["setnumber", "set_number"] (some 5),
    idxWeight := getIndex m ["weight"] (some 6),
    idxReps := getIndex m ["reps"] (some 7),
    idxRpe := getIndex m ["rpe"] (some 8),
    idxRestSec := getIndex m
      ["restsec", "restseconds", "rest_seconds"] (some 9),
    idxRestTargetSec := getIndex m
      ["resttargetsec", "resttargetseconds", "rest_target_seconds"] (some 10),
    idxNotes := getIndex m ["notes"] (some 11),
    idxUpdatedAt := getIndex m ["updatedat"] (some 13) }

/-- `setIfProvided(idx, val)` guarded by the route's `if (idx >= 0)`:
write `String(val)` at the column unless the value is absent/null. -/
def applyUpdates (pairs : List (ℤ × Option String)) (r : List String) :
    List String :=
  pairs.foldl (fun r p =>
    if 0 ≤ p.1 then
      match p.2 with
      | some v => listWrite r p.1.toNat v
      | none => r
    else r) r

/-- The write list of the update route, in source order: the seven
`setIfProvided` calls followed by the unconditional `UpdatedAt` stamp. -/
def updateWriteList (idxs : UpdateSetIndices) (b : UpdateSetRequest)
    (now : String) : List (ℤ × Option String) :=
  let restSeconds := b.RestSeconds <|> b.restSeconds <|> b.restSec
  [(idxs.idxSetNumber, b.setNumber),
   (idxs.idxWeight, b.weight),
   (idxs.idxReps, b.reps),
   (idxs.idxRpe, b.rpe),
   (idxs.idxRestSec, restSeconds),
   (idxs.idxRestTargetSec, b.restTargetSec),
   (idxs.idxNotes, b.notes),
   (idxs.idxUpdatedAt, some now)]

/-- The pure core of the update route (step 3): starting from the target
row as read back, overwrite exactly the provided fields and `UpdatedAt`,
then pad to the current header width.  The final truncation of the source
(`updatedRow.length = totalColumns`) is embedded although it can never
fire. -/
def updateSetRow (headerRow : List String) (row : List String)
    (b : UpdateSetRequest) (now : String) : List String :=
  let idxs := updateSetIndices headerRow
  let r := applyUpdates (updateWriteList idxs b now) row
  let totalColumns := Nat.max headerRow.length r.length
  let r := r ++ List.replicate (totalColumns - r.length) ""
  let r := if totalColumns < r.length then r.take totalColumns else r
  r

/-- The columns the update route writes: the columns of the fields
actually provided in the request plus the `UpdatedAt` column. -/
def updateWrites (idxs : UpdateSetIndices) (b : UpdateSetRequest)
    (j : ℕ) : Prop :=
  (b.setNumber.isSome ∧ (j : ℤ) = idxs.idxSetNumber) ∨
  (b.weight.isSome ∧ (j : ℤ) = idxs.idxWeight) ∨
  (b.reps.isSome ∧ (j : ℤ) = idxs.idxReps) ∨
  (b.rpe.isSome ∧ (j : ℤ) = idxs.idxRpe) ∨
  ((b.RestSeconds <|> b.restSeconds <|> b.restSec).isSome ∧
    (j : ℤ) = idxs.idxRestSec) ∨
  (b.restTargetSec.isSome ∧ (j : ℤ) = idxs.idxRestTargetSec) ∨
  (b.notes.isSome ∧ (j : ℤ) = idxs.idxNotes) ∨
  (j : ℤ) = idxs.idxUpdatedAt

/-- `rowIndex1Based` resolution (step 1 of the update route): scan the
`SetId` column (data begins at row 2) for the first cell equal to the
requested id. -/
def findRowIndex1Based (idColumn : List (List String)) (setId : String) :
    Option ℕ :=
  ((idColumn.enum.drop 1).find? (fun p =>
    jsTrim ((p.2.head?).getD "") == setId)).map (fun p => p.1 + 1)

/-- Response of the update route, with the written row recorded as its
modelled side effect. -/
structure UpdateResponse where
  status : ℕ
  error : Option String := none
  ok : Bool := false
  setId : Option String := none
  rowIndex1Based : Option ℕ := none
  updatedRow : Option (List String) := none
  deriving Repr, DecidableEq

/-- Embeds the POST handler of the set-update route
(`api/sheets/sets/update`).  `idColFetch` is the `A:A` column fetch,
`headerFetch` the header-row fetch, `rowFetch` the target-row fetch
(its first row being the target row), and `updateOk` / `updateStatus`
the result of the write-back call. -/
def updateSetPOST (session : Option NextAuthSession) (env : Env)
    (body : Option UpdateSetRequest) (now : String)
    (idColFetch headerFetch rowFetch : FetchValues)
    (updateOk : Bool) (updateStatus : ℕ) : UpdateResponse :=
  if tokenMissing session then
    ⟨401, some "Not signed in", false, none, none, none⟩
  else if envMissing env "SPREADSHEET_ID" then
    ⟨500, some "Missing SPREADSHEET_ID", false, none, none, none⟩
  else
    let b := body.getD {}
    let setId := jsTrim (b.setId.getD "")
    if setId = "" then
      ⟨400, some "Missing setId", false, none, none, none⟩
    else if !idColFetch.ok then
      ⟨idColFetch.status, some "Failed reading SetId column",
        false, none, none, none⟩
    else
      match findRowIndex1Based idColFetch.values setId with
      | none => ⟨404, some "SetId not found", false, some setId, none, none⟩
      | some rowIndex1Based =>
          if !headerFetch.ok then
            ⟨headerFetch.status, some "Failed reading WorkoutSets headers",
              false, none, none, none⟩
          else if !rowFetch.ok then
            ⟨rowFetch.status, some "Failed reading target row",
              false, none, none, none⟩
          else
            let headerRow := headerFetch.values.head?.getD []
            let row := rowFetch.values.head?.getD []
            let updatedRow := updateSetRow headerRow row b now
            if !updateOk then
              ⟨updateStatus, some "Failed updating row",
                false, none, none, none⟩
            else
              ⟨200, none, true, some setId, some rowIndex1Based,
                some updatedRow⟩

/-! ## Workout progression state (src/lib/workout.ts and
`src/app/workout/exercise/page.tsx`) -/

/-- A draft weight/reps entry (`draftSets` values). -/
structure DraftSet where
  weight : Option String := none
  reps : Option String := none
  deriving Repr, DecidableEq

/-- Embeds the `WorkoutSessionState` type of `src/lib/workout.ts`. -/
structure WorkoutSessionState where
  sessionId : String := ""
  planDay : String := ""
  startTimestamp : String := ""
  endTimestamp : Option String := none
  timezone : String := ""
  exercisesPlanned : ℚ := 0
  exercisesCompleted : ℚ := 0
  totalSetsLogged : ℚ := 0
  plan : List ExercisePlan := []
  currentExerciseIndex : ℚ := 0
  currentSetIndex : ℚ := 1
  sets : List LoggedSet := []
  draftSets : List (String × DraftSet) := []
  exerciseNotes : List (String × String) := []
  notes : String := ""
  deriving Repr, DecidableEq

/-- The `updateState` callback of `handleSave` in the exercise execution
page: append the saved set and advance the progression indices.  A `NaN`
planned set count makes the JS `>=` comparison false, hence the `none`
branch. -/
def handleSaveTransition (exercise : ExercisePlan) (loggedSet : LoggedSet)
    (prev : WorkoutSessionState) : WorkoutSessionState :=
  let nextSets := prev.sets ++ [loggedSet]
  -- const isLastSetOfExercise = prev.currentSetIndex >= totalPlannedSets;
  let isLastSetOfExercise : Bool := match exercise.plannedSets with
    | some totalPlannedSets => decide (totalPlannedSets ≤ prev.currentSetIndex)
    | none => false
  let nextExerciseIndex := if isLastSetOfExercise then
      prev.currentExerciseIndex + 1 else prev.currentExerciseIndex
  let nextSetIndex : ℚ := if isLastSetOfExercise then 1
    else prev.currentSetIndex + 1
  { prev with
    sets := nextSets,
    totalSetsLogged := (nextSets.length : ℚ),
    currentSetIndex := nextSetIndex,
    currentExerciseIndex := nextExerciseIndex,
    exercisesCompleted := if isLastSetOfExercise then
      prev.exercisesCompleted + 1 else prev.exercisesCompleted }

/-- The `updateState` callback of `handleSkip` in the exercise execution
page (identical in the source to the one of `handleSave`). -/
def handleSkipTransition (exercise : ExercisePlan) (skippedSet : LoggedSet)
    (prev : WorkoutSessionState) : WorkoutSessionState :=
  let nextSets := prev.sets ++ [skippedSet]
  let isLastSetOfExercise : Bool := match exercise.plannedSets with
    | some totalPlannedSets => decide (totalPlannedSets ≤ prev.currentSetIndex)
    | none => false
  let nextExerciseIndex := if isLastSetOfExercise then
      prev.currentExerciseIndex + 1 else prev.currentExerciseIndex
  let nextSetIndex : ℚ := if isLastSetOfExercise then 1
    else prev.currentSetIndex + 1
  { prev with
    sets := nextSets,
    totalSetsLogged := (nextSets.length : ℚ),
    currentSetIndex := nextSetIndex,
    currentExerciseIndex := nextExerciseIndex,
    exercisesCompleted := if isLastSetOfExercise then
      prev.exercisesCompleted + 1 else prev.exercisesCompleted }

/-- The completion effect of the exercise execution page ("When workout
is complete, set endTimestamp once and route to finish"): when the
exercise index has reached the end of the plan and no end timestamp is
stamped yet, stamp `now`; the `updateState` callback re-checks
`prev.endTimestamp` before writing. -/
def completionCheck (now : String) (state : WorkoutSessionState) :
    WorkoutSessionState :=
  -- const done = state.currentExerciseIndex >= state.plan.length;
  if (state.plan.length : ℚ) ≤ state.currentExerciseIndex then
    if state.endTimestamp = none then
      -- updateState((prev) => { if (prev.endTimestamp) return prev; ... })
      if state.endTimestamp ≠ none then state
      else { state with endTimestamp := some now }
    else state
  else state

/-! ## Specification-side definitions

The definitions below formalise the wording of the natural-language
specification; the theorems compare them with the embedded code. -/

/-- Spec-side value of one set in the `prMaxWeightTimesReps` aggregate:
"weight times reps where an unset or zero weight is treated as a
multiplier of 1"; reps count as `0` when non-numeric. -/
def claimPrProduct (s : LoggedSet) : ℚ :=
  (match s.weight with
   | some w => if w = 0 then 1 else w
   | none => 1) * s.reps.getD 0

/-- Spec-side value of one set in the corrected `prMaxWeightTimesReps`
aggregate: weight times reps where a weight that is unset, zero or
negative — any weight that is not strictly positive — is replaced by the
multiplier `1`; reps count as `0` when non-numeric. -/
def amendedPrProduct (s : LoggedSet) : ℚ :=
  (match s.weight with
   | some w => if 0 < w then w else 1
   | none => 1) * s.reps.getD 0

/-- A single logged set with a negative numeric weight, separating the
code's strictly-positive test from the unset-or-zero rule. -/
def negWeightSet : LoggedSet :=
  { session_id := "s", weight := some (-5), reps := some 3 }

/-- The running-maximum update (`if (x > m) m = x` with a `-Infinity`
start modelled as `none`). -/
def optMax (o : Option ℚ) (v : ℚ) : Option ℚ :=
  match o with
  | none => some v
  | some m => if m < v then some v else some m

/-- The weight × reps product as the loop computes it. -/
def prProduct (s : LoggedSet) : ℚ :=
  (match s.weight with
   | some wv => if 0 < wv then wv else 1
   | none => 1) * jsNumOr s.reps 0

/-- The spec's synthetic personal-record history. -/
def prExample : List LoggedSet :=
  [{ session_id := "s", weight := some 100, reps := some 5 },
   { session_id := "s", weight := some 0, reps := some 8 },
   { session_id := "s", weight := some 120, reps := some 3 }]

/-- Spec-side reading of the header map: the first column whose
normalized header equals `key`. -/
def headerFindIdx (headerRow : List String) (key : String) : Option ℕ :=
  match headerRow with
  | [] => none
  | h :: rest =>
      if normalizeHeader (some h) = key then some 0
      else (headerFindIdx rest key).map (fun i => i + 1)

/-- A soft-deleted set row with a conspicuous weight, for exercising the
deletion filters. -/
def deletedRow : LoggedSet :=
  { session_id := "s-old",
    user_email := some "u@example.com",
    set_timestamp := "2024-01-01T00:00:00.000Z",
    exercise_id := "bench",
    exercise_name := "Bench",
    set_number := some 1,
    weight := some 999,
    reps := some 1,
    is_deleted := some "TRUE" }

/-- An environment with every variable set (to its own nonempty name). -/
def envAll : Env := fun key => some key

/-- An environment with no variable set. -/
def envNone : Env := fun _ => none

/-! ## Helper lemmas -/

theorem mathMax_eq_max (a b : ℚ) : mathMax a b = max a b := by
  unfold mathMax
  rcases lt_trichotomy a b with h | h | h
  · rw [if_pos h, max_eq_right h.le]
  · subst h; simp
  · rw [if_neg (not_lt.mpr h.le), max_eq_left h.le]

theorem mathMin_eq_min (a b : ℚ) : mathMin a b = min a b := by
  unfold mathMin
  rcases lt_trichotomy b a with h | h | h
  · rw [if_pos h, min_eq_right h.le]
  · subst h; simp
  · rw [if_neg (not_lt.mpr h.le), min_eq_left h.le]

theorem le_foldl_mathMax (l : List ℚ) (b : ℚ) : b ≤ l.foldl mathMax b := by
  induction l generalizing b with
  | nil => simp
  | cons h t ih =>
      refine le_trans ?_ (ih (mathMax b h))
      rw [mathMax_eq_max]
      exact le_max_left _ _

theorem mathMaxList_eq_max? (l : List ℚ) (hne : l ≠ []) :
    mathMaxList l = (l.max?).getD 0 := by
  cases l with
  | nil => exact absurd rfl hne
  | cons h t =>
      show t.foldl mathMax h = ((h :: t).max?).getD 0
      have h1 : (h :: t).max? = some (t.foldl max h) := rfl
      rw [h1, Option.getD_some]
      have hfun : mathMax = fun a b : ℚ => max a b := by
        funext a b; exact mathMax_eq_max a b
      rw [hfun]

theorem mathMaxList_pos (l : List ℚ) (hne : l ≠ []) (hpos : ∀ n ∈ l, 0 < n) :
    0 < mathMaxList l := by
  cases l with
  | nil => exact absurd rfl hne
  | cons h t =>
      have hh : 0 < h := hpos h (List.mem_cons_self _ _)
      exact lt_of_lt_of_le hh (le_foldl_mathMax t h)

/-- `nums.length ? Math.max(...nums) : 0` equals the optional list
maximum with default `0`. -/
theorem ifEmpty_mathMaxList (l : List ℚ) :
    (if l.isEmpty then (0 : ℚ) else mathMaxList l) = (l.max?).getD 0 := by
  cases l with
  | nil => rfl
  | cons h t =>
      rw [mathMaxList_eq_max? _ (List.cons_ne_nil _ _)]
      rfl

theorem max?_getD_nonneg (l : List ℚ) (hpos : ∀ n ∈ l, 0 < n) :
    0 ≤ (l.max?).getD 0 := by
  cases l with
  | nil => norm_num [List.max?]
  | cons h t =>
      rw [← mathMaxList_eq_max? _ (List.cons_ne_nil _ _)]
      exact (mathMaxList_pos _ (List.cons_ne_nil _ _) hpos).le

theorem foldl_mathMax_int (t : List ℚ) (b : ℤ)
    (hint : ∀ n ∈ t, ∃ c : ℤ, n = (c : ℚ)) :
    ∃ m : ℤ, t.foldl mathMax (b : ℚ) = (m : ℚ) := by
  induction t generalizing b with
  | nil => exact ⟨b, rfl⟩
  | cons x xs ih =>
      rcases hint x (List.mem_cons_self _ _) with ⟨c, hc⟩
      have hstep : mathMax (b : ℚ) x = ((max b c : ℤ) : ℚ) := by
        rw [mathMax_eq_max, hc]
        exact_mod_cast rfl
      rw [List.foldl_cons, hstep]
      exact ih (max b c) (fun n hn => hint n (List.mem_cons_of_mem _ hn))

theorem max?_getD_int (l : List ℚ) (hint : ∀ n ∈ l, ∃ c : ℤ, n = (c : ℚ)) :
    ∃ m : ℤ, (l.max?).getD 0 = (m : ℚ) := by
  cases l with
  | nil => exact ⟨0, rfl⟩
  | cons h t =>
      rw [← mathMaxList_eq_max? _ (List.cons_ne_nil _ _)]
      rcases hint h (List.mem_cons_self _ _) with ⟨bh, hbh⟩
      show ∃ m : ℤ, t.foldl mathMax h = (m : ℚ)
      rw [hbh]
      exact foldl_mathMax_int t bh
        (fun n hn => hint n (List.mem_cons_of_mem _ hn))

/-- **C1.** For every planned set count `p ≥ 1` and every list of logged
set numbers (positive, as set numbers are 1-based), `computeNextSetNumber`
returns `min p (maxLoggedSetNumber + 1)`, where `maxLoggedSetNumber` is
the largest set number occurring in the list (`0` for the empty list),
and in particular returns `1` when the list is empty. -/
theorem computeNextSetNumber_spec (p : ℚ) (sets : List ℚ) (hp : 1 ≤ p)
    (hpos : ∀ n ∈ sets, 0 < n) :
    computeNextSetNumber (some p) (sets.map some) =
      min p ((sets.max?).getD 0 + 1) ∧
    (sets = [] → computeNextSetNumber (some p) (sets.map some) = 1) := by
  have hp0 : p ≠ 0 := by intro h; rw [h] at hp; norm_num at hp
  have hplanned : mathMax 1 (jsNumOr (some p) 1) = p := by
    simp only [jsNumOr, if_neg hp0, mathMax_eq_max, max_eq_right hp]
  have hmap : (sets.map some).map (fun s : Option ℚ => jsNumOr s 0) = sets := by
    rw [List.map_map]
    have h2 : (fun s : ℚ => jsNumOr (some s) 0) = fun s : ℚ => s := by
      funext s
      simp only [jsNumOr]
      split <;> simp_all
    simp only [Function.comp_def, h2, List.map_id']
  have hfilter : sets.filter (fun n => decide (0 < n)) = sets :=
    List.filter_eq_self.mpr (fun a ha => decide_eq_true (hpos a ha))
  have hM0 : 0 ≤ (sets.max?).getD 0 := max?_getD_nonneg sets hpos
  have h1 : (1 : ℚ) ≤ min p ((sets.max?).getD 0 + 1) :=
    le_min hp (by linarith)
  have hmain : computeNextSetNumber (some p) (sets.map some) =
      min p ((sets.max?).getD 0 + 1) := by
    unfold computeNextSetNumber
    simp only [hplanned, hmap, hfilter, ifEmpty_mathMaxList,
      mathMin_eq_min]
    rw [if_neg (not_lt.mpr h1)]
  refine ⟨hmain, fun hemp => ?_⟩
  subst hemp
  rw [hmain]
  simp only [List.max?, Option.getD_none, zero_add]
  rw [min_eq_right hp]

/-- Witness for C1 at the spec's own example: `plannedSetCount = 4` with
logged set numbers `{1, 2}` yields `3`. -/
theorem computeNextSetNumber_spec_witness :
    (1 : ℚ) ≤ 4 ∧ (∀ n ∈ ([1, 2] : List ℚ), 0 < n) ∧
    computeNextSetNumber (some 4) [some 1, some 2] = 3 := by
  have hp : (1 : ℚ) ≤ 4 := by norm_num
  have hpos : ∀ n ∈ ([1, 2] : List ℚ), 0 < n := by
    intro n hn
    fin_cases hn <;> norm_num
  refine ⟨hp, hpos, ?_⟩
  have h := (computeNextSetNumber_spec 4 [1, 2] hp hpos).1
  rw [show ([(1 : ℚ), 2].map some) = [some 1, some 2] from rfl] at h
  rw [h]
  have h2 : (([1, 2] : List ℚ).max?).getD 0 = 2 := by
    show (some (([2] : List ℚ).foldl max 1)).getD 0 = 2
    norm_num [List.foldl]
  rw [h2]
  norm_num

/-- **C10 (amended).** `computeNextSetNumber` is total and range-bounded:
for every input, including a zero, negative or `NaN` planned count and
missing / `NaN` / non-positive logged set numbers (which are ignored), it
returns `n` with `1 ≤ n ≤ max 1 plannedSetCount` (reading a `NaN` planned
count as `1`), never `0` or a negative value; `n` is moreover an integer
whenever the planned count and the logged set numbers are integers.  (The
claim's unconditional "returns an integer" fails for fractional positive
logged set numbers — see `computeNextSetNumber_not_integer`.) -/
theorem computeNextSetNumber_total (p : Option ℚ) (sets : List (Option ℚ)) :
    1 ≤ computeNextSetNumber p sets ∧
    computeNextSetNumber p sets ≤ max 1 (p.getD 1) ∧
    ((∃ a : ℤ, p.getD 1 = (a : ℚ)) →
      (∀ s ∈ sets, ∃ b : ℤ, jsNumOr s 0 = (b : ℚ)) →
      ∃ k : ℤ, computeNextSetNumber p sets = (k : ℚ)) := by
  unfold computeNextSetNumber
  simp only [ifEmpty_mathMaxList, mathMin_eq_min]
  set nums := (sets.map (fun s : Option ℚ => jsNumOr s 0)).filter
    (fun n => decide (0 < n)) with hnums
  have hplanned1 : 1 ≤ mathMax 1 (jsNumOr p 1) := by
    rw [mathMax_eq_max]; exact le_max_left _ _
  have hnumspos : ∀ n ∈ nums, 0 < n := by
    intro n hn
    rw [hnums] at hn
    exact of_decide_eq_true (List.mem_filter.mp hn).2
  have hM0 : 0 ≤ (nums.max?).getD 0 := max?_getD_nonneg nums hnumspos
  have hnext1 : 1 ≤ min (mathMax 1 (jsNumOr p 1)) ((nums.max?).getD 0 + 1) :=
    le_min hplanned1 (by linarith)
  rw [if_neg (not_lt.mpr hnext1)]
  refine ⟨hnext1, ?_, ?_⟩
  · have hple : mathMax 1 (jsNumOr p 1) ≤ max 1 (p.getD 1) := by
      rw [mathMax_eq_max]
      rcases p with _ | q
      · simp [jsNumOr]
      · simp only [jsNumOr, Option.getD_some]
        rcases eq_or_ne q 0 with hq | hq
        · subst hq; simp
        · rw [if_neg hq]
    exact le_trans (min_le_left _ _) hple
  · rintro ⟨a, ha⟩ hb
    have hplannedInt : ∃ k : ℤ, mathMax 1 (jsNumOr p 1) = (k : ℚ) := by
      rw [mathMax_eq_max]
      rcases p with _ | q
      · exact ⟨1, by simp [jsNumOr]⟩
      · simp only [jsNumOr]
        rcases eq_or_ne q 0 with hq | hq
        · subst hq; exact ⟨1, by simp⟩
        · rw [if_neg hq]
          simp only [Option.getD_some] at ha
          refine ⟨max 1 a, ?_⟩
          rw [ha]
          exact_mod_cast rfl
    have hnumsInt : ∀ n ∈ nums, ∃ b : ℤ, n = (b : ℚ) := by
      intro n hn
      rw [hnums] at hn
      have hmem := (List.mem_filter.mp hn).1
      rcases List.mem_map.mp hmem with ⟨s, hs, hval⟩
      rcases hb s hs with ⟨b, hbv⟩
      exact ⟨b, by rw [← hval, hbv]⟩
    rcases hplannedInt with ⟨k1, hk1⟩
    rcases max?_getD_int nums hnumsInt with ⟨m, hm⟩
    refine ⟨min k1 (m + 1), ?_⟩
    rw [hk1, hm]
    push_cast
    rfl

/-- Counterexample to **C10** as stated: the logged set number `2.5`
(positive, hence not ignored) makes `computeNextSetNumber` return the
non-integer `3.5`. -/
theorem computeNextSetNumber_not_integer :
    computeNextSetNumber (some 4) [some (5 / 2)] = 7 / 2 ∧
    ¬ ∃ k : ℤ, computeNextSetNumber (some 4) [some (5 / 2)] = (k : ℚ) := by
  have hval : computeNextSetNumber (some 4) [some (5 / 2)] = 7 / 2 := by
    norm_num [computeNextSetNumber, mathMax, mathMin, mathMaxList, jsNumOr,
      List.foldl, List.filter]
  refine ⟨hval, ?_⟩
  rintro ⟨k, hk⟩
  rw [hval] at hk
  have h2 : (2 : ℚ) * (7 / 2) = 2 * (k : ℚ) := by rw [hk]
  norm_num at h2
  have h3 : (7 : ℤ) = 2 * k := by exact_mod_cast h2
  omega

/-- Witness for C10 (amended) at a concrete input. -/
theorem computeNextSetNumber_total_witness :
    1 ≤ computeNextSetNumber (some 4) [some 1] ∧
    computeNextSetNumber (some 4) [some 1] ≤ max 1 4 ∧
    ∃ k : ℤ, computeNextSetNumber (some 4) [some 1] = (k : ℚ) := by
  have h := computeNextSetNumber_total (some 4) [some 1]
  refine ⟨h.1, by simpa using h.2.1, ?_⟩
  refine h.2.2 ⟨4, by simp⟩ ?_
  intro s hs
  rw [List.mem_singleton] at hs
  subst hs
  exact ⟨1, by simp [jsNumOr]⟩

/-! ## C2: personal-record aggregation -/

theorem jsNumOr_zero (v : Option ℚ) : jsNumOr v 0 = v.getD 0 := by
  cases v with
  | none => rfl
  | some q =>
      show (if q = 0 then (0 : ℚ) else q) = q
      split <;> simp_all

theorem prStep_eq (acc : Option ℚ × Option ℚ) (s : LoggedSet) :
    prStep acc s =
      ((match s.weight with
        | some w => optMax acc.1 w
        | none => acc.1), optMax acc.2 (prProduct s)) := by
  rcases acc with ⟨a, b⟩
  cases hws : s.weight <;> cases a <;> cases b <;>
    simp [prStep, optMax, prProduct, hws]

theorem optMax_some (m v : ℚ) : optMax (some m) v = some (max m v) := by
  show (if m < v then some v else some m) = some (max m v)
  rcases lt_trichotomy m v with h | h | h
  · rw [if_pos h, max_eq_right h.le]
  · subst h; simp
  · rw [if_neg (not_lt.mpr h.le), max_eq_left h.le]

theorem foldl_optMax (l : List ℚ) (acc : Option ℚ) :
    l.foldl optMax acc =
      match acc with
      | none => l.max?
      | some m => some (l.foldl max m) := by
  induction l generalizing acc with
  | nil => cases acc <;> rfl
  | cons h t ih =>
      rw [List.foldl_cons, ih (optMax acc h)]
      cases acc with
      | none =>
          show (match some h with
            | none => t.max?
            | some m => some (t.foldl max m)) = (h :: t).max?
          rfl
      | some m =>
          rw [optMax_some]
          rfl

theorem foldl_prStep_fst (sets : List LoggedSet) (acc : Option ℚ × Option ℚ) :
    (sets.foldl prStep acc).1 =
      (sets.filterMap LoggedSet.weight).foldl optMax acc.1 := by
  induction sets generalizing acc with
  | nil => rfl
  | cons s t ih =>
      rw [List.foldl_cons, ih (prStep acc s), prStep_eq]
      cases hw : s.weight with
      | none => simp [List.filterMap_cons, hw]
      | some w => simp [List.filterMap_cons, hw]

theorem foldl_prStep_snd (sets : List LoggedSet) (acc : Option ℚ × Option ℚ) :
    (sets.foldl prStep acc).2 =
      (sets.map prProduct).foldl optMax acc.2 := by
  induction sets generalizing acc with
  | nil => rfl
  | cons s t ih =>
      rw [List.foldl_cons, ih (prStep acc s), prStep_eq, List.map_cons,
        List.foldl_cons]

theorem prProduct_eq_amended (s : LoggedSet) :
    prProduct s = amendedPrProduct s := by
  unfold prProduct amendedPrProduct
  rw [jsNumOr_zero]

/-- **C2 (counterexample).** On the one-set history with weight `-5` and
reps `3`, the code's strictly-positive test (`w > 0 ? w : 1`) replaces
the negative weight by the multiplier `1` and reports
`prMaxWeightTimesReps = 1 × 3 = 3`, while the rule of the original
claim — only an unset or zero weight becomes the multiplier `1` — gives
the maximum of `-5 × 3 = -15`; so `prMaxWeightTimesReps` is not the
maximum of the claim's products. -/
theorem computePrValues_negative_weight :
    (computePrValues [negWeightSet]).prMaxWeightTimesReps ≠
      ([negWeightSet].map claimPrProduct).max? ∧
    (computePrValues [negWeightSet]).prMaxWeightTimesReps = some 3 ∧
    ([negWeightSet].map claimPrProduct).max? = some (-15) := by
  have h1 : (computePrValues [negWeightSet]).prMaxWeightTimesReps = some 3 := by
    norm_num [computePrValues, prStep, jsNumOr, negWeightSet, List.foldl]
  have h2 : ([negWeightSet].map claimPrProduct).max? = some (-15) := by
    norm_num [claimPrProduct, negWeightSet, List.max?, List.foldl]
  refine ⟨?_, h1, h2⟩
  rw [h1, h2]
  simp only [ne_eq, Option.some.injEq]
  norm_num

/-- **C2 (amended).** For every list of sets, `computePrValues` returns
as `prMaxWeight` the maximum numeric weight over the sets and as
`prMaxWeightTimesReps` the maximum over the sets of weight × reps, a
weight that is unset, zero or negative counting as the multiplier `1`
(both `none` exactly when there is nothing to aggregate). -/
theorem computePrValues_amended (sets : List LoggedSet) :
    (computePrValues sets).prMaxWeight =
      (sets.filterMap LoggedSet.weight).max? ∧
    (computePrValues sets).prMaxWeightTimesReps =
      (sets.map amendedPrProduct).max? := by
  cases sets with
  | nil => exact ⟨rfl, rfl⟩
  | cons s t =>
      constructor
      · show ((s :: t).foldl prStep (none, none)).1 =
          ((s :: t).filterMap LoggedSet.weight).max?
        rw [foldl_prStep_fst, foldl_optMax]
      · show ((s :: t).foldl prStep (none, none)).2 =
          ((s :: t).map amendedPrProduct).max?
        rw [foldl_prStep_snd, foldl_optMax]
        have hmap : (s :: t).map prProduct = (s :: t).map amendedPrProduct :=
          List.map_congr_left (fun a _ => prProduct_eq_amended a)
        rw [hmap]

/-- Witness for the amended C2 at the spec's synthetic history:
`prExample` yields `prMaxWeight = 120` and
`prMaxWeightTimesReps = max(500, 8, 360) = 500`. -/
theorem computePrValues_amended_witness :
    computePrValues prExample = ⟨some 120, some 500⟩ := by
  obtain ⟨h1, h2⟩ := computePrValues_amended prExample
  calc computePrValues prExample =
      ⟨(computePrValues prExample).prMaxWeight,
       (computePrValues prExample).prMaxWeightTimesReps⟩ := rfl
    _ = ⟨some 120, some 500⟩ := by
        rw [h1, h2]
        norm_num [prExample, amendedPrProduct, List.max?, List.foldl,
          List.filterMap]

/-! ## C4: the save/skip progression transition -/

/-- **C4.** On every save or skip of the active set, the set is appended
to the session's logged sets and `currentSetIndex` advances by 1, except
when `currentSetIndex` has reached the exercise's planned set count, in
which case `currentExerciseIndex` advances by 1, `currentSetIndex` resets
to 1, and `exercisesCompleted` increments; and the skip transition is the
same function as the save transition. -/
theorem saveSkipTransition_spec (exercise : ExercisePlan) (s : LoggedSet)
    (prev : WorkoutSessionState) (planned : ℚ)
    (hpl : exercise.plannedSets = some planned) :
    (handleSaveTransition exercise s prev).sets = prev.sets ++ [s] ∧
    (planned ≤ prev.currentSetIndex →
      (handleSaveTransition exercise s prev).currentExerciseIndex =
        prev.currentExerciseIndex + 1 ∧
      (handleSaveTransition exercise s prev).currentSetIndex = 1 ∧
      (handleSaveTransition exercise s prev).exercisesCompleted =
        prev.exercisesCompleted + 1) ∧
    (¬ planned ≤ prev.currentSetIndex →
      (handleSaveTransition exercise s prev).currentSetIndex =
        prev.currentSetIndex + 1 ∧
      (handleSaveTransition exercise s prev).currentExerciseIndex =
        prev.currentExerciseIndex ∧
      (handleSaveTransition exercise s prev).exercisesCompleted =
        prev.exercisesCompleted) ∧
    handleSkipTransition exercise s prev =
      handleSaveTransition exercise s prev := by
  unfold handleSaveTransition handleSkipTransition
  rw [hpl]
  refine ⟨rfl, ?_, ?_, rfl⟩
  · intro h
    simp [decide_eq_true h]
  · intro h
    simp [decide_eq_false h]

/-- Witness for C4 at a concrete state: with 3 planned sets and the set
index at 1, saving appends the set and advances the set index to 2, and
skipping performs the identical transition. -/
theorem saveSkipTransition_spec_witness :
    ({ plannedSets := some 3 } : ExercisePlan).plannedSets = some 3 ∧
    ¬ (3 : ℚ) ≤ ({} : WorkoutSessionState).currentSetIndex ∧
    (handleSaveTransition { plannedSets := some 3 } { session_id := "s" }
      {}).sets = [{ session_id := "s" }] ∧
    (handleSaveTransition { plannedSets := some 3 } { session_id := "s" }
      {}).currentSetIndex = 2 ∧
    handleSkipTransition { plannedSets := some 3 } { session_id := "s" } {} =
      handleSaveTransition { plannedSets := some 3 } { session_id := "s" }
        {} := by
  have hlt : ¬ (3 : ℚ) ≤ ({} : WorkoutSessionState).currentSetIndex := by
    show ¬ (3 : ℚ) ≤ 1
    norm_num
  have h := saveSkipTransition_spec ({ plannedSets := some 3 } : ExercisePlan)
    { session_id := "s" } {} 3 rfl
  refine ⟨rfl, hlt, ?_, ?_, h.2.2.2⟩
  · rw [h.1]
    rfl
  · rw [(h.2.2.1 hlt).1]
    show (1 : ℚ) + 1 = 2
    norm_num

/-! ## C5: idempotent completion stamping -/

/-- **C5.** The completion check stamps the end timestamp only if it is
unset: a state with a stamped end timestamp is left unchanged, re-running
the check is idempotent, a completed unstamped state gets exactly its end
timestamp stamped, and an uncompleted state is untouched. -/
theorem completionCheck_idempotent :
    (∀ now t s, s.endTimestamp = some t → completionCheck now s = s) ∧
    (∀ now now' s, completionCheck now (completionCheck now' s) =
      completionCheck now' s) ∧
    (∀ now s, (s.plan.length : ℚ) ≤ s.currentExerciseIndex →
      s.endTimestamp = none →
      completionCheck now s = { s with endTimestamp := some now }) ∧
    (∀ now s, ¬ (s.plan.length : ℚ) ≤ s.currentExerciseIndex →
      completionCheck now s = s) := by
  have hset : ∀ now t s, s.endTimestamp = some t → completionCheck now s = s := by
    intro now t s hts
    unfold completionCheck
    by_cases hdone : (s.plan.length : ℚ) ≤ s.currentExerciseIndex
    · rw [if_pos hdone, if_neg (by simp [hts])]
    · rw [if_neg hdone]
  have hstamp : ∀ now s, (s.plan.length : ℚ) ≤ s.currentExerciseIndex →
      s.endTimestamp = none →
      completionCheck now s = { s with endTimestamp := some now } := by
    intro now s hdone hts
    unfold completionCheck
    rw [if_pos hdone, if_pos hts, if_neg (by simp [hts])]
  have hnotdone : ∀ now s, ¬ (s.plan.length : ℚ) ≤ s.currentExerciseIndex →
      completionCheck now s = s := by
    intro now s h
    unfold completionCheck
    rw [if_neg h]
  refine ⟨hset, ?_, hstamp, hnotdone⟩
  intro now now' s
  by_cases hdone : (s.plan.length : ℚ) ≤ s.currentExerciseIndex
  · cases hts : s.endTimestamp with
    | some t =>
        rw [hset now' t s hts]
        exact hset now t s hts
    | none =>
        rw [hstamp now' s hdone hts]
        exact hset now now' _ rfl
  · rw [hnotdone now' s hdone, hnotdone now s hdone]

/-- Witness for C5: re-running the completion check on a state whose end
timestamp is already stamped leaves the state unchanged. -/
theorem completionCheck_idempotent_witness :
    ({ endTimestamp := some "2024-01-01T01:00:00.000Z" } :
      WorkoutSessionState).endTimestamp = some "2024-01-01T01:00:00.000Z" ∧
    completionCheck "2024-01-01T02:00:00.000Z"
      { endTimestamp := some "2024-01-01T01:00:00.000Z" } =
      { endTimestamp := some "2024-01-01T01:00:00.000Z" } :=
  ⟨rfl, completionCheck_idempotent.1 "2024-01-01T02:00:00.000Z"
    "2024-01-01T01:00:00.000Z" _ rfl⟩

/-! ## C3: soft-deleted rows and the three read paths -/

/-- Counterexample to **C3**: a soft-deleted row (`is_deleted = "TRUE"`)
matching the history query is returned by the history endpoint, and the
personal-record computation over the endpoint's result incorporates it
(`prMaxWeight = 999` comes from the deleted row). -/
theorem history_includes_deleted :
    deletedRow.is_deleted = some "TRUE" ∧
    (historyGET (some ⟨some "tok", some "u@example.com"⟩) (some "bench")
      (some "s-current") [deletedRow]).sets = [deletedRow] ∧
    (computePrValues (historyGET (some ⟨some "tok", some "u@example.com"⟩)
      (some "bench") (some "s-current") [deletedRow]).sets).prMaxWeight =
      some 999 := by
  have hsets : (historyGET (some ⟨some "tok", some "u@example.com"⟩)
      (some "bench") (some "s-current") [deletedRow]).sets = [deletedRow] := by
    simp +decide [historyGET, List.filter_singleton,
      List.mergeSort_singleton]
  refine ⟨rfl, hsets, ?_⟩
  rw [hsets]
  norm_num [computePrValues, prStep, jsNumOr, deletedRow, List.foldl]

/-- **C3 (amended).** Soft-deleted set rows are excluded from the
current-session set listing: every row returned by the set-listing route
has its soft-delete flag unset.  (The history endpoint and the PR
computation over its results do not exclude them — see
`history_includes_deleted`.) -/
theorem sessionSets_exclude_deleted (session : Option NextAuthSession)
    (env : Env) (sid : Option String) (sets : List LoggedSet)
    (s : LoggedSet) (hs : s ∈ (setsListGET session env sid sets).sets) :
    s.is_deleted ≠ some "TRUE" := by
  by_cases h1 : tokenMissing session = true
  · simp [setsListGET, h1] at hs
  · by_cases h2 : (["SPREADSHEET_ID", "SHEET_WORKOUT_SETS"].filter
        (fun key => envMissing env key)) = []
    · by_cases h3 : jsTrim (sid.getD "") = ""
      · simp [setsListGET, h1, h2, h3] at hs
      · simp only [setsListGET, h1, h2, h3, Bool.false_eq_true, if_false,
          ne_eq, not_true_eq_false, not_false_eq_true, if_true,
          if_neg h3] at hs
        have hp := (List.mem_filter.mp hs).2
        simp only [Bool.and_eq_true, bne_iff_ne] at hp
        exact hp.2
    · simp [setsListGET, h1, h2] at hs

/-- Witness for C3 (amended): a live row of the requested session is
returned by the set listing, and its soft-delete flag is unset. -/
theorem sessionSets_exclude_deleted_witness :
    ({ session_id := "s1" } : LoggedSet) ∈
      (setsListGET (some ⟨some "tok", some "u@example.com"⟩) envAll
        (some "s1") [{ session_id := "s1" }]).sets ∧
    ({ session_id := "s1" } : LoggedSet).is_deleted ≠ some "TRUE" := by
  have hmem : ({ session_id := "s1" } : LoggedSet) ∈
      (setsListGET (some ⟨some "tok", some "u@example.com"⟩) envAll
        (some "s1") [{ session_id := "s1" }]).sets := by
    rw [show (setsListGET (some ⟨some "tok", some "u@example.com"⟩) envAll
      (some "s1") [{ session_id := "s1" }]).sets =
      [{ session_id := "s1" }] from rfl]
    exact List.mem_singleton.mpr rfl
  exact ⟨hmem, sessionSets_exclude_deleted _ _ _ _ _ hmem⟩

/-! ## C6: unauthorized requests get a 401 structured error -/

/-- **C6.** For every data-bearing endpoint — plan read, set
create/update/list, history, progress, exercise setup/catalog reads,
session commit — a request carrying no access token receives the
401-status structured JSON error of that route, never a 200 response. -/
theorem unauthorized_all_routes (session : Option NextAuthSession)
    (h : tokenMissing session = true) :
    (∀ env planDay planRows, planGET session env planDay planRows =
      ⟨401, some "Unauthorized", "", [], []⟩) ∧
    (∀ env body newSetId createdAt headerFetch appendOk appendStatus,
      createSetPOST session env body newSetId createdAt headerFetch
        appendOk appendStatus =
        ⟨401, some "Not signed in", false, none, none⟩) ∧
    (∀ env body now idColFetch headerFetch rowFetch updateOk updateStatus,
      updateSetPOST session env body now idColFetch headerFetch rowFetch
        updateOk updateStatus =
        ⟨401, some "Not signed in", false, none, none, none⟩) ∧
    (∀ env sid sets, setsListGET session env sid sets =
      ⟨401, some "Unauthorized", []⟩) ∧
    (∀ exerciseKey excludeSessionId sets,
      historyGET session exerciseKey excludeSessionId sets =
      ⟨401, some "Unauthorized", [], none⟩) ∧
    (∀ env exerciseKey parseDate sessions sets,
      progressGET session env exerciseKey parseDate sessions sets =
      ⟨401, some "Unauthorized", "", "", []⟩) ∧
    (∀ exerciseKey env fetch, setupGET session exerciseKey env fetch =
      ⟨401, some "Not signed in", false, none⟩) ∧
    (∀ exerciseKey env fetch, catalogGET session exerciseKey env fetch =
      ⟨401, some "Not signed in", false, none⟩) ∧
    (∀ env body now, commitPOST session env body now =
      ⟨401, some "Unauthorized", false, none, [], []⟩) := by
  refine ⟨?_, ?_, ?_, ?_, ?_, ?_, ?_, ?_, ?_⟩
  · intro env planDay planRows
    simp [planGET, h]
  · intro env body newSetId createdAt headerFetch appendOk appendStatus
    simp [createSetPOST, h]
  · intro env body now idColFetch headerFetch rowFetch updateOk updateStatus
    simp [updateSetPOST, h]
  · intro env sid sets
    simp [setsListGET, h]
  · intro exerciseKey excludeSessionId sets
    simp [historyGET, h]
  · intro env exerciseKey parseDate sessions sets
    simp [progressGET, h]
  · intro exerciseKey env fetch
    simp [setupGET, h]
  · intro exerciseKey env fetch
    simp [catalogGET, h]
  · intro env body now
    simp [commitPOST, h]

/-- Witness for C6: with no session at all, the history, set-create and
plan routes each answer with their 401 structured error. -/
theorem unauthorized_all_routes_witness :
    tokenMissing none = true ∧
    historyGET none (some "bench") none [] =
      ⟨401, some "Unauthorized", [], none⟩ ∧
    createSetPOST none envAll none "set_1" "2024-01-01T00:00:00.000Z" {}
      true 200 = ⟨401, some "Not signed in", false, none, none⟩ ∧
    planGET none envAll none [] = ⟨401, some "Unauthorized", "", [], []⟩ := by
  have h := unauthorized_all_routes none rfl
  exact ⟨rfl, h.2.2.2.2.1 _ _ _, h.2.1 _ _ _ _ _ _ _, h.1 _ _ _⟩

/-! ## C7: missing configuration and the "misconfigured" error -/

/-- Counterexample to **C7**: with a valid token and a nonempty exercise
key but no spreadsheet identifier configured, the exercise-catalog read
returns a 200 success response with the default `found: false` payload —
no structured "misconfigured" error at all. -/
theorem catalog_misconfigured_masked :
    catalogGET (some ⟨some "tok", some "u@example.com"⟩) (some "bench")
      envNone {} = ⟨200, none, false, none⟩ ∧
    (catalogGET (some ⟨some "tok", some "u@example.com"⟩) (some "bench")
      envNone {}).status = 200 ∧
    (catalogGET (some ⟨some "tok", some "u@example.com"⟩) (some "bench")
      envNone {}).error = none := by
  have h : catalogGET (some ⟨some "tok", some "u@example.com"⟩)
      (some "bench") envNone {} = ⟨200, none, false, none⟩ := by
    simp +decide [catalogGET, envNone]
  exact ⟨h, by rw [h], by rw [h]⟩

/-- **C7 (amended).** When the spreadsheet document identifier is unset,
the set-create operation signals a structured 500 "Missing
SPREADSHEET_ID" error, distinct from the 401 unauthorized condition; the
exercise-catalog read, however, does not: it answers 200 with the default
`found: false` payload (see `catalog_misconfigured_masked`). -/
theorem create_misconfigured_distinct (session : Option NextAuthSession)
    (h1 : tokenMissing session = false) (h2 : emailMissing session = false)
    (env : Env) (hmiss : envMissing env "SPREADSHEET_ID" = true) :
    (∀ body newSetId createdAt headerFetch appendOk appendStatus,
      createSetPOST session env body newSetId createdAt headerFetch
        appendOk appendStatus =
        ⟨500, some "Missing SPREADSHEET_ID", false, none, none⟩) ∧
    (∀ exerciseKeyParam fetch, jsTrim (exerciseKeyParam.getD "") ≠ "" →
      catalogGET session exerciseKeyParam env fetch =
        ⟨200, none, false, none⟩) ∧
    (500 : ℕ) ≠ 401 := by
  refine ⟨?_, ?_, by norm_num⟩
  · intro body newSetId createdAt headerFetch appendOk appendStatus
    simp [createSetPOST, h1, h2, hmiss]
  · intro exerciseKeyParam fetch hkey
    simp [catalogGET, h1, hmiss, hkey]

/-- Witness for C7 (amended): a signed-in set-create call with no
spreadsheet identifier set gets the 500 misconfiguration error. -/
theorem create_misconfigured_distinct_witness :
    tokenMissing (some ⟨some "tok", some "u@example.com"⟩) = false ∧
    emailMissing (some ⟨some "tok", some "u@example.com"⟩) = false ∧
    envMissing envNone "SPREADSHEET_ID" = true ∧
    createSetPOST (some ⟨some "tok", some "u@example.com"⟩) envNone none
      "set_1" "2024-01-01T00:00:00.000Z" {} true 200 =
      ⟨500, some "Missing SPREADSHEET_ID", false, none, none⟩ :=
  ⟨rfl, rfl, rfl,
    (create_misconfigured_distinct (some ⟨some "tok", some "u@example.com"⟩)
      rfl rfl envNone rfl).1 _ _ _ _ _ _⟩

/-! ## C8: the sheet-row codec resolves headers by name -/

theorem headerFindIdx_cons (h : String) (rest : List String) (key : String) :
    headerFindIdx (h :: rest) key =
      if normalizeHeader (some h) = key then some 0
      else (headerFindIdx rest key).map (fun i => i + 1) := rfl

theorem map_add_shift (o : Option ℕ) (i : ℕ) :
    (o.map (fun x => x + 1)).map (fun x => x + i) =
      o.map (fun x => x + (i + 1)) := by
  cases o with
  | none => rfl
  | some v =>
      show some (v + 1 + i) = some (v + (i + 1))
      have h : v + 1 + i = v + (i + 1) := by omega
      rw [h]

theorem lookup_append (m : List (String × ℕ)) (k : String) (j : ℕ)
    (key : String) :
    (m ++ [(k, j)]).lookup key =
      ((m.lookup key) <|> (if key = k then some j else none)) := by
  induction m with
  | nil =>
      rcases eq_or_ne key k with h | h
      · simp [List.lookup, h]
      · simp only [List.nil_append, List.lookup]
        rw [show (key == k) = false from by simp [h]]
        simp [h]
  | cons a t ih =>
      rcases a with ⟨a1, a2⟩
      rcases eq_or_ne key a1 with h | h
      · simp [List.lookup, h]
      · simp only [List.cons_append, List.lookup]
        rw [show (key == a1) = false from by simp [h]]
        simpa using ih

theorem buildHeaderMapAux_lookup (rows : List String)
    (m : List (String × ℕ)) (i : ℕ) (key : String) (hkey : key ≠ "") :
    (buildHeaderMapAux m i rows).lookup key =
      ((m.lookup key) <|> (headerFindIdx rows key).map (fun x => x + i)) := by
  induction rows generalizing m i with
  | nil =>
      show m.lookup key = ((m.lookup key) <|> none)
      cases m.lookup key <;> rfl
  | cons h rest ih =>
      rw [show buildHeaderMapAux m i (h :: rest) = buildHeaderMapAux
        (if normalizeHeader (some h) = "" then m
         else if ((m.lookup (normalizeHeader (some h))).isSome) then m
         else m ++ [(normalizeHeader (some h), i)]) (i + 1) rest from rfl]
      rw [ih]
      rw [headerFindIdx_cons]
      rcases eq_or_ne (normalizeHeader (some h)) "" with hz | hz
      · -- an empty normalized header is skipped by the map
        have hne : ¬ normalizeHeader (some h) = key := by
          rw [hz]; exact fun hc => hkey hc.symm
        rw [if_pos hz, if_neg hne, ← map_add_shift]
      · rw [if_neg hz]
        by_cases hck : normalizeHeader (some h) = key
        · -- column h bears the key
          rw [if_pos hck]
          subst hck
          cases hml : m.lookup (normalizeHeader (some h)) with
          | some v => simp [hml]
          | none =>
              rw [if_neg (by simp [hml])]
              rw [lookup_append, hml, if_pos rfl]
              simp
        · -- column h bears a different key
          rw [if_neg hck]
          cases hml : (m.lookup (normalizeHeader (some h))).isSome with
          | true =>
              rw [if_pos (by simp [hml])]
              rw [← map_add_shift]
          | false =>
              rw [if_neg (by simp [hml])]
              rw [lookup_append]
              rw [if_neg (fun hc => hck hc.symm)]
              cases m.lookup key with
              | some v => rfl
              | none =>
                  show (none <|> (headerFindIdx rest key).map
                      (fun x => x + (i + 1))) = _
                  rw [Option.none_orElse, Option.none_orElse,
                    map_add_shift]

theorem buildHeaderMap_lookup (rows : List String) (key : String)
    (hkey : key ≠ "") :
    (buildHeaderMap rows).lookup key = headerFindIdx rows key := by
  unfold buildHeaderMap
  rw [buildHeaderMapAux_lookup rows [] 0 key hkey]
  show ((headerFindIdx rows key).map (fun x => x + 0)) = headerFindIdx rows key
  cases headerFindIdx rows key with
  | none => rfl
  | some v => show some (v + 0) = some v; rw [Nat.add_zero]

theorem headerFindIdx_unique (rows : List String) (key : String) (j : ℕ)
    (hj : String) (hget : rows.get? j = some hj)
    (hnorm : normalizeHeader (some hj) = key)
    (huniq : ∀ i hi, rows.get? i = some hi → i ≠ j →
      normalizeHeader (some hi) ≠ key) :
    headerFindIdx rows key = some j := by
  induction rows generalizing j with
  | nil => simp at hget
  | cons h rest ih =>
      cases j with
      | zero =>
          have hh : h = hj := by simpa using hget
          subst hh
          unfold headerFindIdx
          rw [if_pos hnorm]
      | succ j' =>
          have hne : normalizeHeader (some h) ≠ key :=
            huniq 0 h (by simp) (by omega)
          unfold headerFindIdx
          rw [if_neg hne]
          have hrest : headerFindIdx rest key = some j' := by
            refine ih j' (by simpa using hget) ?_
            intro i hi hgi hij
            exact huniq (i + 1) hi (by simpa using hgi) (by omega)
          rw [hrest]
          rfl

theorem headerFindIdx_none (rows : List String) (key : String)
    (hnone : ∀ h ∈ rows, normalizeHeader (some h) ≠ key) :
    headerFindIdx rows key = none := by
  induction rows with
  | nil => rfl
  | cons h rest ih =>
      unfold headerFindIdx
      rw [if_neg (hnone h (List.mem_cons_self _ _))]
      rw [ih (fun x hx => hnone x (List.mem_cons_of_mem _ hx))]
      rfl

/-- **C8.** Header-permutation independence of the row codec: if exactly
one column's normalized header matches any of the candidate names of a
field, `getIndex` resolves the field to that column, whatever the column
order; and when no column matches any candidate, it falls back to the
hardcoded positional default (`-1` if there is none). -/
theorem getIndex_resolves_header :
    (∀ (headerRow keys : List String) (fb : Option ℕ) (j : ℕ)
       (hj : String) (k : String),
       (∀ c ∈ keys, c ≠ "") → k ∈ keys →
       headerRow.get? j = some hj → normalizeHeader (some hj) = k →
       (∀ i hi, headerRow.get? i = some hi → i ≠ j →
         ∀ c ∈ keys, normalizeHeader (some hi) ≠ c) →
       getIndex (buildHeaderMap headerRow) keys fb = (j : ℤ)) ∧
    (∀ (headerRow keys : List String) (fb : Option ℕ),
       (∀ c ∈ keys, c ≠ "") →
       (∀ h ∈ headerRow, ∀ c ∈ keys, normalizeHeader (some h) ≠ c) →
       getIndex (buildHeaderMap headerRow) keys fb =
         (match fb with
          | some f => (f : ℤ)
          | none => -1)) := by
  constructor
  · intro headerRow keys
    induction keys with
    | nil =>
        intro fb j hj k _ hk
        simp at hk
    | cons c rest ih =>
        intro fb j hj k hne hk hget hnorm huniq
        by_cases hck : c = k
        · subst hck
          have hl : (buildHeaderMap headerRow).lookup c =
              headerFindIdx headerRow c :=
            buildHeaderMap_lookup _ _ (hne c (List.mem_cons_self _ _))
          have hf : headerFindIdx headerRow c = some j :=
            headerFindIdx_unique _ _ j hj hget hnorm
              (fun i hi hgi hij => huniq i hi hgi hij c
                (List.mem_cons_self _ _))
          show (match (buildHeaderMap headerRow).lookup c with
            | some idx => (idx : ℤ)
            | none => getIndex (buildHeaderMap headerRow) rest fb) = (j : ℤ)
          rw [hl, hf]
        · have hl : (buildHeaderMap headerRow).lookup c =
              headerFindIdx headerRow c :=
            buildHeaderMap_lookup _ _ (hne c (List.mem_cons_self _ _))
          have hf : headerFindIdx headerRow c = none := by
            refine headerFindIdx_none _ _ ?_
            intro x hx
            rcases List.mem_iff_get?.mp hx with ⟨i, hgi⟩
            by_cases hij : i = j
            · subst hij
              rw [hgi] at hget
              injection hget with hxy
              subst hxy
              rw [hnorm]
              exact fun hc => hck hc.symm
            · exact huniq i x hgi hij c (List.mem_cons_self _ _)
          have hkrest : k ∈ rest := by
            rcases List.mem_cons.mp hk with h1 | h1
            · exact absurd h1.symm hck
            · exact h1
          show (match (buildHeaderMap headerRow).lookup c with
            | some idx => (idx : ℤ)
            | none => getIndex (buildHeaderMap headerRow) rest fb) = (j : ℤ)
          rw [hl, hf]
          exact ih fb j hj k (fun x hx => hne x (List.mem_cons_of_mem _ hx))
            hkrest hget hnorm
            (fun i hi hgi hij x hx => huniq i hi hgi hij x
              (List.mem_cons_of_mem _ hx))
  · intro headerRow keys
    induction keys with
    | nil => intro fb _ _; rfl
    | cons c rest ih =>
        intro fb hne hnone
        have hl : (buildHeaderMap headerRow).lookup c =
            headerFindIdx headerRow c :=
          buildHeaderMap_lookup _ _ (hne c (List.mem_cons_self _ _))
        have hf : headerFindIdx headerRow c = none :=
          headerFindIdx_none _ _
            (fun x hx => hnone x hx c (List.mem_cons_self _ _))
        show (match (buildHeaderMap headerRow).lookup c with
          | some idx => (idx : ℤ)
          | none => getIndex (buildHeaderMap headerRow) rest fb) = _
        rw [hl, hf]
        exact ih fb (fun x hx => hne x (List.mem_cons_of_mem _ hx))
          (fun x hx c' hc' => hnone x hx c' (List.mem_cons_of_mem _ hc'))

/-- Witness for C8 on a permuted `WorkoutSets` header: the `weight` field
resolves to column 0, where its header actually sits, and an absent `rpe`
header falls back to the positional default 7. -/
theorem getIndex_resolves_header_witness :
    normalizeHeader (some "Weight") = "weight" ∧
    getIndex (buildHeaderMap ["Weight", "SetId", "Reps"]) ["weight"]
      (some 6) = 0 ∧
    getIndex (buildHeaderMap ["Weight", "SetId", "Reps"]) ["rpe"]
      (some 7) = 7 := by
  refine ⟨by decide, ?_, ?_⟩
  · refine getIndex_resolves_header.1 ["Weight", "SetId", "Reps"] ["weight"]
      (some 6) 0 "Weight" "weight" (by decide) (by decide) rfl (by decide) ?_
    intro i hi hget hne c hc
    have hc' : c = "weight" := by simpa using hc
    subst hc'
    match i, hget with
    | 0, hget => exact absurd rfl hne
    | 1, hget =>
        simp at hget
        subst hget
        decide
    | 2, hget =>
        simp at hget
        subst hget
        decide
    | (n + 3), hget => simp at hget
  · refine getIndex_resolves_header.2 ["Weight", "SetId", "Reps"] ["rpe"]
      (some 7) (by decide) ?_
    intro h hh c hc
    have hc' : c = "rpe" := by simpa using hc
    subst hc'
    fin_cases hh <;> decide

/-! ## C9: the set-update route is a frame over the target row -/

theorem getD_listWrite_self (l : List String) (i : ℕ) (v : String) :
    (listWrite l i v).getD i "" = v := by
  induction l generalizing i with
  | nil =>
      induction i with
      | zero => rfl
      | succ n ih => simpa [listWrite] using ih
  | cons h t ih =>
      cases i with
      | zero => rfl
      | succ n => simpa [listWrite] using ih n

theorem getD_listWrite_ne (l : List String) (i j : ℕ) (v : String)
    (hne : j ≠ i) : (listWrite l i v).getD j "" = l.getD j "" := by
  induction l generalizing i j with
  | nil =>
      induction i generalizing j with
      | zero =>
          cases j with
          | zero => exact absurd rfl hne
          | succ j' => simp [listWrite, List.getD]
      | succ n ih =>
          cases j with
          | zero => simp [listWrite, List.getD]
          | succ j' =>
              have h2 : j' ≠ n := fun hc => hne (by rw [hc])
              simpa [listWrite, List.getD] using ih j' h2
  | cons h t ih =>
      cases i with
      | zero =>
          cases j with
          | zero => exact absurd rfl hne
          | succ j' => simp [listWrite, List.getD]
      | succ n =>
          cases j with
          | zero => simp [listWrite, List.getD]
          | succ j' =>
              have h2 : j' ≠ n := fun hc => hne (by rw [hc])
              simpa [listWrite, List.getD] using ih n j' h2

theorem getD_append_replicate (l : List String) (n j : ℕ) :
    (l ++ List.replicate n "").getD j "" = l.getD j "" := by
  induction l generalizing j with
  | nil =>
      induction n generalizing j with
      | zero => rfl
      | succ m ih =>
          cases j with
          | zero => rfl
          | succ j' => exact ih j'
  | cons h t ih =>
      cases j with
      | zero => rfl
      | succ j' => simpa [List.getD] using ih j'

theorem length_listWrite (l : List String) (i : ℕ) (v : String) :
    l.length ≤ (listWrite l i v).length := by
  induction l generalizing i with
  | nil => simp
  | cons h t ih =>
      cases i with
      | zero => simp [listWrite]
      | succ n => simpa [listWrite] using ih n

theorem applyUpdates_frame (pairs : List (ℤ × Option String))
    (r : List String) (j : ℕ)
    (h : ∀ p ∈ pairs, p.2.isSome = true → (j : ℤ) ≠ p.1) :
    (applyUpdates pairs r).getD j "" = r.getD j "" := by
  induction pairs generalizing r with
  | nil => rfl
  | cons p rest ih =>
      have hstep : applyUpdates (p :: rest) r = applyUpdates rest
          (if 0 ≤ p.1 then
            (match p.2 with
             | some v => listWrite r p.1.toNat v
             | none => r)
          else r) := rfl
      rw [hstep, ih _ (fun q hq => h q (List.mem_cons_of_mem _ hq))]
      have hp1 : p ∈ p :: rest := List.mem_cons_self p rest
      rcases p with ⟨idx, val⟩
      by_cases hidx : 0 ≤ idx
      · rw [if_pos hidx]
        cases hval : val with
        | none => rfl
        | some v =>
            have hsome : (idx, val).2.isSome = true := by rw [hval]; rfl
            have hne : (j : ℤ) ≠ idx := h (idx, val) hp1 hsome
            refine getD_listWrite_ne r idx.toNat j v ?_
            intro hc
            apply hne
            rw [hc, Int.toNat_of_nonneg hidx]
      · rw [if_neg hidx]

theorem applyUpdates_append (pre post : List (ℤ × Option String))
    (r : List String) :
    applyUpdates (pre ++ post) r = applyUpdates post (applyUpdates pre r) :=
  List.foldl_append _ _ _ _

theorem applyUpdates_write (pre post : List (ℤ × Option String))
    (r : List String) (idx : ℤ) (v : String) (hidx : 0 ≤ idx)
    (hpost : ∀ p ∈ post, p.2.isSome = true → p.1 ≠ idx) :
    (applyUpdates (pre ++ (idx, some v) :: post) r).getD idx.toNat "" = v := by
  rw [show pre ++ (idx, some v) :: post =
    (pre ++ [(idx, some v)]) ++ post by simp]
  rw [applyUpdates_append]
  rw [applyUpdates_frame post _ idx.toNat (fun p hp hs => by
    intro hc
    exact hpost p hp hs (by rw [← hc, Int.toNat_of_nonneg hidx]))]
  rw [applyUpdates_append]
  have hstep : applyUpdates [(idx, some v)] (applyUpdates pre r) =
      if 0 ≤ idx then listWrite (applyUpdates pre r) idx.toNat v
      else applyUpdates pre r := rfl
  rw [hstep, if_pos hidx]
  exact getD_listWrite_self _ _ _

theorem getIndex_nonneg (m : List (String × ℕ)) (keys : List String)
    (f : ℕ) : 0 ≤ getIndex m keys (some f) := by
  induction keys with
  | nil => show (0 : ℤ) ≤ (f : ℤ); exact Int.ofNat_nonneg f
  | cons k rest ih =>
      unfold getIndex
      cases hml : m.lookup k with
      | some idx => simp
      | none => exact ih

theorem updateSetIndices_nonneg (headerRow : List String) :
    0 ≤ (updateSetIndices headerRow).idxSetNumber ∧
    0 ≤ (updateSetIndices headerRow).idxWeight ∧
    0 ≤ (updateSetIndices headerRow).idxReps ∧
    0 ≤ (updateSetIndices headerRow).idxRpe ∧
    0 ≤ (updateSetIndices headerRow).idxRestSec ∧
    0 ≤ (updateSetIndices headerRow).idxRestTargetSec ∧
    0 ≤ (updateSetIndices headerRow).idxNotes ∧
    0 ≤ (updateSetIndices headerRow).idxUpdatedAt :=
  ⟨getIndex_nonneg _ _ _, getIndex_nonneg _ _ _, getIndex_nonneg _ _ _,
   getIndex_nonneg _ _ _, getIndex_nonneg _ _ _, getIndex_nonneg _ _ _,
   getIndex_nonneg _ _ _, getIndex_nonneg _ _ _⟩

theorem padTrunc_getD (r : List String) (total : ℕ)
    (hle : r.length ≤ total) (j : ℕ) :
    (if total < (r ++ List.replicate (total - r.length) "").length then
      (r ++ List.replicate (total - r.length) "").take total
     else (r ++ List.replicate (total - r.length) "")).getD j "" =
      r.getD j "" := by
  have hlen : (r ++ List.replicate (total - r.length) "").length = total := by
    simp only [List.length_append, List.length_replicate]
    omega
  rw [if_neg (by rw [hlen]; omega)]
  exact getD_append_replicate _ _ _

theorem updateSetRow_getD (headerRow row : List String)
    (b : UpdateSetRequest) (now : String) (j : ℕ) :
    (updateSetRow headerRow row b now).getD j "" =
      (applyUpdates (updateWriteList (updateSetIndices headerRow) b now)
        row).getD j "" :=
  padTrunc_getD
    (applyUpdates (updateWriteList (updateSetIndices headerRow) b now) row)
    (Nat.max headerRow.length
      (applyUpdates (updateWriteList (updateSetIndices headerRow) b now)
        row).length)
    (Nat.le_max_right _ _) j

/-- **C9.** The set-update row rewrite is a frame: every cell whose
column is not among the provided fields' columns (plus `UpdatedAt`)
keeps its prior value (absent cells reading as empty), an absent or null
field leaves its column untouched, and — when the resolved columns are
pairwise distinct — each provided field's value lands in its own column
and `UpdatedAt` is stamped. -/
theorem updateSetRow_frame (headerRow row : List String)
    (b : UpdateSetRequest) (now : String) :
    (∀ j : ℕ, ¬ updateWrites (updateSetIndices headerRow) b j →
      (updateSetRow headerRow row b now).getD j "" = row.getD j "") ∧
    ([(updateSetIndices headerRow).idxSetNumber,
      (updateSetIndices headerRow).idxWeight,
      (updateSetIndices headerRow).idxReps,
      (updateSetIndices headerRow).idxRpe,
      (updateSetIndices headerRow).idxRestSec,
      (updateSetIndices headerRow).idxRestTargetSec,
      (updateSetIndices headerRow).idxNotes,
      (updateSetIndices headerRow).idxUpdatedAt].Pairwise (· ≠ ·) →
     (∀ v, b.setNumber = some v → (updateSetRow headerRow row b now).getD
       (updateSetIndices headerRow).idxSetNumber.toNat "" = v) ∧
     (∀ v, b.weight = some v → (updateSetRow headerRow row b now).getD
       (updateSetIndices headerRow).idxWeight.toNat "" = v) ∧
     (∀ v, b.reps = some v → (updateSetRow headerRow row b now).getD
       (updateSetIndices headerRow).idxReps.toNat "" = v) ∧
     (∀ v, b.rpe = some v → (updateSetRow headerRow row b now).getD
       (updateSetIndices headerRow).idxRpe.toNat "" = v) ∧
     (∀ v, (b.RestSeconds <|> b.restSeconds <|> b.restSec) = some v →
       (updateSetRow headerRow row b now).getD
       (updateSetIndices headerRow).idxRestSec.toNat "" = v) ∧
     (∀ v, b.restTargetSec = some v → (updateSetRow headerRow row b now).getD
       (updateSetIndices headerRow).idxRestTargetSec.toNat "" = v) ∧
     (∀ v, b.notes = some v → (updateSetRow headerRow row b now).getD
       (updateSetIndices headerRow).idxNotes.toNat "" = v) ∧
     (updateSetRow headerRow row b now).getD
       (updateSetIndices headerRow).idxUpdatedAt.toNat "" = now) := by
  obtain ⟨hn1, hn2, hn3, hn4, hn5, hn6, hn7, hn8⟩ :=
    updateSetIndices_nonneg headerRow
  set idxs := updateSetIndices headerRow with hidxs
  constructor
  · intro j hj
    rw [updateSetRow_getD]
    refine applyUpdates_frame _ _ _ ?_
    intro p hp hs
    simp only [updateWriteList, List.mem_cons, List.not_mem_nil,
      or_false] at hp
    unfold updateWrites at hj
    push_neg at hj
    obtain ⟨j1, j2, j3, j4, j5, j6, j7, j8⟩ := hj
    rcases hp with h | h | h | h | h | h | h | h <;> subst h
    · exact j1 hs
    · exact j2 hs
    · exact j3 hs
    · exact j4 hs
    · exact j5 hs
    · exact j6 hs
    · exact j7 hs
    · exact j8
  · intro hdist
    simp only [List.pairwise_cons, List.mem_cons, List.mem_singleton,
      List.not_mem_nil, or_false, forall_eq_or_imp, forall_eq,
      List.Pairwise.nil, and_true] at hdist
    obtain ⟨⟨d12, d13, d14, d15, d16, d17, d18⟩,
      ⟨d23, d24, d25, d26, d27, d28⟩, ⟨d34, d35, d36, d37, d38⟩,
      ⟨d45, d46, d47, d48⟩, ⟨d56, d57, d58⟩, ⟨d67, d68⟩, d78, -⟩ := hdist
    refine ⟨?_, ?_, ?_, ?_, ?_, ?_, ?_, ?_⟩
    · intro v hv
      rw [updateSetRow_getD]
      rw [show updateWriteList idxs b now =
        [] ++ (idxs.idxSetNumber, some v) ::
        [(idxs.idxWeight, b.weight), (idxs.idxReps, b.reps),
         (idxs.idxRpe, b.rpe),
         (idxs.idxRestSec, b.RestSeconds <|> b.restSeconds <|> b.restSec),
         (idxs.idxRestTargetSec, b.restTargetSec), (idxs.idxNotes, b.notes),
         (idxs.idxUpdatedAt, some now)] from by
          simp [updateWriteList, hv]]
      refine applyUpdates_write _ _ _ _ _ hn1 ?_
      intro p hp hs
      simp only [List.mem_cons, List.not_mem_nil, or_false] at hp
      rcases hp with h | h | h | h | h | h | h <;> subst h
      · exact fun hc => d12 hc.symm
      · exact fun hc => d13 hc.symm
      · exact fun hc => d14 hc.symm
      · exact fun hc => d15 hc.symm
      · exact fun hc => d16 hc.symm
      · exact fun hc => d17 hc.symm
      · exact fun hc => d18 hc.symm
    · intro v hv
      rw [updateSetRow_getD]
      rw [show updateWriteList idxs b now =
        [(idxs.idxSetNumber, b.setNumber)] ++ (idxs.idxWeight, some v) ::
        [(idxs.idxReps, b.reps), (idxs.idxRpe, b.rpe),
         (idxs.idxRestSec, b.RestSeconds <|> b.restSeconds <|> b.restSec),
         (idxs.idxRestTargetSec, b.restTargetSec), (idxs.idxNotes, b.notes),
         (idxs.idxUpdatedAt, some now)] from by
          simp [updateWriteList, hv]]
      refine applyUpdates_write _ _ _ _ _ hn2 ?_
      intro p hp hs
      simp only [List.mem_cons, List.not_mem_nil, or_false] at hp
      rcases hp with h | h | h | h | h | h <;> subst h
      · exact fun hc => d23 hc.symm
      · exact fun hc => d24 hc.symm
      · exact fun hc => d25 hc.symm
      · exact fun hc => d26 hc.symm
      · exact fun hc => d27 hc.symm
      · exact fun hc => d28 hc.symm
    · intro v hv
      rw [updateSetRow_getD]
      rw [show updateWriteList idxs b now =
        [(idxs.idxSetNumber, b.setNumber), (idxs.idxWeight, b.weight)] ++
        (idxs.idxReps, some v) ::
        [(idxs.idxRpe, b.rpe),
         (idxs.idxRestSec, b.RestSeconds <|> b.restSeconds <|> b.restSec),
         (idxs.idxRestTargetSec, b.restTargetSec), (idxs.idxNotes, b.notes),
         (idxs.idxUpdatedAt, some now)] from by
          simp [updateWriteList, hv]]
      refine applyUpdates_write _ _ _ _ _ hn3 ?_
      intro p hp hs
      simp only [List.mem_cons, List.not_mem_nil, or_false] at hp
      rcases hp with h | h | h | h | h <;> subst h
      · exact fun hc => d34 hc.symm
      · exact fun hc => d35 hc.symm
      · exact fun hc => d36 hc.symm
      · exact fun hc => d37 hc.symm
      · exact fun hc => d38 hc.symm
    · intro v hv
      rw [updateSetRow_getD]
      rw [show updateWriteList idxs b now =
        [(idxs.idxSetNumber, b.setNumber), (idxs.idxWeight, b.weight),
         (idxs.idxReps, b.reps)] ++ (idxs.idxRpe, some v) ::
        [(idxs.idxRestSec, b.RestSeconds <|> b.restSeconds <|> b.restSec),
         (idxs.idxRestTargetSec, b.restTargetSec), (idxs.idxNotes, b.notes),
         (idxs.idxUpdatedAt, some now)] from by
          simp [updateWriteList, hv]]
      refine applyUpdates_write _ _ _ _ _ hn4 ?_
      intro p hp hs
      simp only [List.mem_cons, List.not_mem_nil, or_false] at hp
      rcases hp with h | h | h | h <;> subst h
      · exact fun hc => d45 hc.symm
      · exact fun hc => d46 hc.symm
      · exact fun hc => d47 hc.symm
      · exact fun hc => d48 hc.symm
    · intro v hv
      rw [updateSetRow_getD]
      rw [show updateWriteList idxs b now =
        [(idxs.idxSetNumber, b.setNumber), (idxs.idxWeight, b.weight),
         (idxs.idxReps, b.reps), (idxs.idxRpe, b.rpe)] ++
        (idxs.idxRestSec, some v) ::
        [(idxs.idxRestTargetSec, b.restTargetSec), (idxs.idxNotes, b.notes),
         (idxs.idxUpdatedAt, some now)] from by
          simp [updateWriteList, hv]]
      refine applyUpdates_write _ _ _ _ _ hn5 ?_
      intro p hp hs
      simp only [List.mem_cons, List.not_mem_nil, or_false] at hp
      rcases hp with h | h | h <;> subst h
      · exact fun hc => d56 hc.symm
      · exact fun hc => d57 hc.symm
      · exact fun hc => d58 hc.symm
    · intro v hv
      rw [updateSetRow_getD]
      rw [show updateWriteList idxs b now =
        [(idxs.idxSetNumber, b.setNumber), (idxs.idxWeight, b.weight),
         (idxs.idxReps, b.reps), (idxs.idxRpe, b.rpe),
         (idxs.idxRestSec, b.RestSeconds <|> b.restSeconds <|> b.restSec)] ++
        (idxs.idxRestTargetSec, some v) ::
        [(idxs.idxNotes, b.notes), (idxs.idxUpdatedAt, some now)] from by
          simp [updateWriteList, hv]]
      refine applyUpdates_write _ _ _ _ _ hn6 ?_
      intro p hp hs
      simp only [List.mem_cons, List.not_mem_nil, or_false] at hp
      rcases hp with h | h <;> subst h
      · exact fun hc => d67 hc.symm
      · exact fun hc => d68 hc.symm
    · intro v hv
      rw [updateSetRow_getD]
      rw [show updateWriteList idxs b now =
        [(idxs.idxSetNumber, b.setNumber), (idxs.idxWeight, b.weight),
         (idxs.idxReps, b.reps), (idxs.idxRpe, b.rpe),
         (idxs.idxRestSec, b.RestSeconds <|> b.restSeconds <|> b.restSec),
         (idxs.idxRestTargetSec, b.restTargetSec)] ++
        (idxs.idxNotes, some v) :: [(idxs.idxUpdatedAt, some now)] from by
          simp [updateWriteList, hv]]
      refine applyUpdates_write _ _ _ _ _ hn7 ?_
      intro p hp hs
      simp only [List.mem_cons, List.not_mem_nil, or_false] at hp
      subst hp
      exact fun hc => d78 hc.symm
    · rw [updateSetRow_getD]
      rw [show updateWriteList idxs b now =
        [(idxs.idxSetNumber, b.setNumber), (idxs.idxWeight, b.weight),
         (idxs.idxReps, b.reps), (idxs.idxRpe, b.rpe),
         (idxs.idxRestSec, b.RestSeconds <|> b.restSeconds <|> b.restSec),
         (idxs.idxRestTargetSec, b.restTargetSec), (idxs.idxNotes, b.notes)]
        ++ (idxs.idxUpdatedAt, some now) :: [] from by
          simp [updateWriteList]]
      refine applyUpdates_write _ _ _ _ _ hn8 ?_
      intro p hp hs
      simp at hp

/-- Witness for C9: with the positional-fallback columns (empty header)
and a request providing only `weight`, the untouched `SetId` cell keeps
its value, the weight lands in its column, and `UpdatedAt` is stamped. -/
theorem updateSetRow_frame_witness :
    ¬ updateWrites (updateSetIndices []) { weight := some "105" } 0 ∧
    [(updateSetIndices []).idxSetNumber, (updateSetIndices []).idxWeight,
     (updateSetIndices []).idxReps, (updateSetIndices []).idxRpe,
     (updateSetIndices []).idxRestSec,
     (updateSetIndices []).idxRestTargetSec, (updateSetIndices []).idxNotes,
     (updateSetIndices []).idxUpdatedAt].Pairwise (· ≠ ·) ∧
    (updateSetRow [] ["set_1", "sess", "2024-01-01", "bench", "Bench", "1",
      "100", "5", "7", "60", "90", "note", "x", "old"]
      { weight := some "105" } "NOW").getD 0 "" = "set_1" ∧
    (updateSetRow [] ["set_1", "sess", "2024-01-01", "bench", "Bench", "1",
      "100", "5", "7", "60", "90", "note", "x", "old"]
      { weight := some "105" } "NOW").getD
      (updateSetIndices []).idxWeight.toNat "" = "105" ∧
    (updateSetRow [] ["set_1", "sess", "2024-01-01", "bench", "Bench", "1",
      "100", "5", "7", "60", "90", "note", "x", "old"]
      { weight := some "105" } "NOW").getD
      (updateSetIndices []).idxUpdatedAt.toNat "" = "NOW" := by
  have hnw : ¬ updateWrites (updateSetIndices []) { weight := some "105" }
      0 := by
    simp +decide [updateWrites, updateSetIndices, buildHeaderMap,
      buildHeaderMapAux, getIndex]
  have hpw : [(updateSetIndices []).idxSetNumber,
      (updateSetIndices []).idxWeight, (updateSetIndices []).idxReps,
      (updateSetIndices []).idxRpe, (updateSetIndices []).idxRestSec,
      (updateSetIndices []).idxRestTargetSec, (updateSetIndices []).idxNotes,
      (updateSetIndices []).idxUpdatedAt].Pairwise (· ≠ ·) := by
    simp +decide [updateSetIndices, buildHeaderMap, buildHeaderMapAux,
      getIndex]
  have h := updateSetRow_frame []
    ["set_1", "sess", "2024-01-01", "bench", "Bench", "1", "100", "5", "7",
     "60", "90", "note", "x", "old"] { weight := some "105" } "NOW"
  have hland := h.2 hpw
  refine ⟨hnw, hpw, ?_, hland.2.1 "105" rfl, hland.2.2.2.2.2.2.2⟩
  rw [h.1 0 hnw]
  rfl

end LiftLog
